import Mathlib

/-!
Verification of the ThesisHub JSON-file repository layer.

This file gives a shallow embedding of `core/repo.py` (locking, backup
rotation, resilient reads, atomic writes, the transactional update
primitive, and the domain helpers built on it) and of the
copy-with-rollback section of `core/files.py`, and proves the behavioural
claims of the specification against those definitions.

Modelling conventions:
* JSON documents are the inductive type `Json`; Python `dict`s are
  association lists with unique keys in insertion order.
* The on-disk state of one resource is `ResState`: the primary file
  (absent, corrupt, or a parsed document -- `json.dumps`/`json.loads` of
  the standard library are assumed to round-trip, so a well-formed file is
  identified with its parsed value), the backup directory, and the
  sidecar lock marker with its mtime.
* Wall-clock time is an explicit rational parameter; `time.sleep`
  advances it by exactly the sleep interval.  Backup snapshot names are
  the UTC timestamps used as file-name suffixes; the source's
  fixed-width `%Y%m%d-%H%M%S` strings sort lexicographically in
  chronological order, so they are modelled as naturals ordered
  numerically.
* The unbounded polling loop of `_acquire_lock` is given explicit fuel;
  running out of fuel is a model artifact (outcome `fuelOut`) that the
  theorems exclude with an explicit fuel bound.
-/

namespace ThesisHub

/-- JSON values as decoded by `json.loads`.  Python numbers (int/float)
are modelled as rationals; objects are key/value lists in insertion
order (Python dicts preserve insertion order and have unique keys). -/
inductive Json where
  | null
  | bool (b : Bool)
  | num (q : ℚ)
  | str (s : String)
  | arr (xs : List Json)
  | obj (kvs : List (String × Json))
deriving Repr

/-- Structural equality of JSON values, mirroring Python `==` on decoded
JSON documents (numbers compare as rationals; the Python quirk that
booleans also equal the numbers 0/1 is not modelled -- record keys and
identifiers in this system are strings). -/
def Json.beq : Json → Json → Bool
  | .null, .null => true
  | .bool a, .bool b => a == b
  | .num a, .num b => a == b
  | .str a, .str b => a == b
  | .arr [], .arr [] => true
  | .arr (x :: xs), .arr (y :: ys) => Json.beq x y && Json.beq (.arr xs) (.arr ys)
  | .obj [], .obj [] => true
  | .obj ((k, v) :: xs), .obj ((k2, v2) :: ys) =>
      k == k2 && Json.beq v v2 && Json.beq (.obj xs) (.obj ys)
  | _, _ => false

/-- A Python dict holding a JSON object. -/
abbrev Obj := List (String × Json)

/-- `d.get(k)`: value of the first entry with key `k`, if any. -/
def Obj.get (o : Obj) (k : String) : Option Json :=
  (o.find? (fun p => p.1 == k)).map (fun p => p.2)

/-- `d[k] = v` on a dict: replace the value of an existing key in place,
otherwise append the new key at the end (Python dict update semantics). -/
def Obj.set : Obj → String → Json → Obj
  | [], k, v => [(k, v)]
  | (k0, v0) :: rest, k, v =>
      if k0 == k then (k, v) :: rest else (k0, v0) :: Obj.set rest k v

/-- Python truthiness of a decoded JSON value (`bool(x)`). -/
def jsonTruthy : Json → Bool
  | .null => false
  | .bool b => b
  | .num q => q != 0
  | .str s => s != ""
  | .arr xs => !xs.isEmpty
  | .obj o => !o.isEmpty

/-- Python `d.get(k) == v` where a missing key yields `None` (JSON null). -/
def optEqJ (o : Option Json) (v : Json) : Bool :=
  Json.beq (o.getD .null) v

-- ## Locking constants (core/repo.py)

/-- `LOCK_TIMEOUT_SEC = 10.0`: wait time to acquire a lock. -/
def LOCK_TIMEOUT_SEC : ℚ := 10

/-- `LOCK_SLEEP_SEC = 0.05`: poll interval of the acquire loop. -/
def LOCK_SLEEP_SEC : ℚ := 1 / 20

/-- `STALE_LOCK_SEC = 60.0`: a lock marker older than this is stale. -/
def STALE_LOCK_SEC : ℚ := 60

/-- `BACKUP_RETAIN_PER_FILE = 10`: backup retention count (0 disables pruning). -/
def BACKUP_RETAIN_PER_FILE : Nat := 10

/-- Outcome of the `_acquire_lock` polling loop.  Each constructor
records the final wall-clock time; the failure constructors also record
the state of the sidecar marker when the loop ended. -/
inductive AcqOutcome where
  | acquired (mtime fin : ℚ)
  | timedOut (marker : Option ℚ) (fin : ℚ)
  | fuelOut (marker : Option ℚ) (fin : ℚ)
deriving Repr

/-- The polling loop of `_acquire_lock` (core/repo.py lines 131-166) for a
single acquirer (no competing process changes the marker).  One iteration:
atomically create the marker (`O_CREAT|O_EXCL`) and return on success; if
it exists and its age exceeds `STALE_LOCK_SEC`, unlink it and retry
immediately; otherwise raise `TimeoutError` once `now - start > timeout`,
else sleep `LOCK_SLEEP_SEC` and retry. -/
def acquireLoop (fuel : Nat) (start : ℚ) (timeout : ℚ) (now : ℚ)
    (marker : Option ℚ) : AcqOutcome :=
  match fuel with
  | 0 => .fuelOut marker now
  | fuel + 1 =>
    match marker with
    | none => .acquired now now
    | some m =>
        if now - m > STALE_LOCK_SEC then
          acquireLoop fuel start timeout now none
        else if now - start > timeout then
          .timedOut (some m) now
        else
          acquireLoop fuel start timeout (now + LOCK_SLEEP_SEC) (some m)

-- ## On-disk state of one resource

/-- Content of one file on disk: either bytes that fail `json.loads`, or a
well-formed document identified with its parsed value. -/
inductive FileContent where
  | corrupt
  | valid (j : Json)
deriving Repr

/-- On-disk state of a single JSON-backed resource: the primary file
(`none` = absent), the backup snapshots in the shared `_bak/` directory
keyed by their timestamp suffix, and the sidecar `.lock` marker with its
mtime (`none` = not held). -/
structure ResState where
  primary : Option FileContent
  backups : List (Nat × FileContent)
  lock : Option ℚ
deriving Repr

/-- Ordering used on backup snapshots: descending by timestamped name
(`sorted(..., reverse=True)` in the source). -/
def bkGE (a b : Nat × FileContent) : Prop := b.1 ≤ a.1

instance : DecidableRel bkGE := fun a b => Nat.decLe b.1 a.1

instance : IsTotal (Nat × FileContent) bkGE :=
  ⟨fun a b => (Nat.le_total b.1 a.1).imp id id⟩

instance : IsTrans (Nat × FileContent) bkGE :=
  ⟨fun _ _ _ h1 h2 => Nat.le_trans h2 h1⟩

/-- Backup slots of a resource sorted newest-first (descending name). -/
def sortBk (B : List (Nat × FileContent)) : List (Nat × FileContent) :=
  List.insertionSort bkGE B

/-- First snapshot in the given order whose content parses
(the `for cand in candidates: try json.loads` loop of `read_json`). -/
def firstValid : List (Nat × FileContent) → Option Json
  | [] => none
  | (_, .valid j) :: _ => some j
  | (_, .corrupt) :: rest => firstValid rest

/-- Python `isinstance(x, (dict, list))` on a decoded JSON value. -/
def Json.isContainer : Json → Bool
  | .arr _ => true
  | .obj _ => true
  | _ => false

/-- The final-fallback guard of `read_json`:
`default if isinstance(default, (dict, list)) else []`. -/
def guardDefault (d : Json) : Json :=
  if d.isContainer then d else .arr []

/-- `read_json` (core/repo.py lines 224-242): parse the primary file; on
any failure fall back to the backup snapshots newest-first and return the
first that parses; if none does, return the declared default (guarded to
a container, else the empty list).  The audit warning emitted on the
failure path is an external fire-and-forget sink and has no effect on the
resource. -/
def read_json (st : ResState) (dflt : Json) : Json :=
  match st.primary with
  | some (.valid j) => j
  | _ =>
    match firstValid (sortBk st.backups) with
    | some j => j
    | none => guardDefault dflt

/-- `shutil.copy2(path, BACKUP_DIR / f"...{ts}.json")`: writing a backup
slot overwrites a slot of the same name, otherwise creates a new one. -/
def setBackup (B : List (Nat × FileContent)) (ts : Nat) (c : FileContent) :
    List (Nat × FileContent) :=
  if B.any (fun p => p.1 == ts) then
    B.map (fun p => if p.1 == ts then (ts, c) else p)
  else (ts, c) :: B

/-- `_rotate_backup` (core/repo.py lines 179-196): if the primary file
exists, copy it to a timestamped backup slot, then (when retention is
positive) list all slots sorted descending by name and delete every slot
beyond `BACKUP_RETAIN_PER_FILE`. -/
def rotate_backup (ts : Nat) (st : ResState) : ResState :=
  match st.primary with
  | none => st
  | some c =>
      let snaps := sortBk (setBackup st.backups ts c)
      { st with
        backups :=
          if BACKUP_RETAIN_PER_FILE > 0 then snaps.take BACKUP_RETAIN_PER_FILE
          else snaps }

/-- Errors surfaced by the repository layer to its callers. -/
inductive RepoErr where
  | lockTimeout
  | fuelOut
  | transformError (msg : String)
deriving Repr, DecidableEq

/-- `write_json` (core/repo.py lines 244-252): acquire the lock, rotate a
backup of the current content, atomically replace the primary file with
the serialized document, release the lock.  `now` is the wall clock at
the call, `ts` the backup timestamp suffix. -/
def write_json (fuel : Nat) (now : ℚ) (ts : Nat) (st : ResState)
    (data : Json) : Except RepoErr ResState :=
  match acquireLoop fuel now LOCK_TIMEOUT_SEC now st.lock with
  | .fuelOut _ _ => .error .fuelOut
  | .timedOut _ _ => .error .lockTimeout
  | .acquired mt _ =>
      let st1 : ResState := { st with lock := some mt }
      let st2 := rotate_backup ts st1
      .ok { st2 with primary := some (.valid data), lock := none }

/-- `update_atomic` (core/repo.py lines 259-283): acquire the lock, read
the current content, apply the transform (which may raise, or return
`none` to persist the content it mutated in place, or return a new
document), rotate a backup, write atomically, and release the lock in a
`finally` block.  On lock timeout or transform failure nothing is
written. -/
def update_atomic (fuel : Nat) (now : ℚ) (ts : Nat) (st : ResState)
    (dflt : Json) (fn : Json → Except String (Option Json)) :
    Except RepoErr (Option Json) × ResState :=
  match acquireLoop fuel now LOCK_TIMEOUT_SEC now st.lock with
  | .fuelOut marker _ => (.error .fuelOut, { st with lock := marker })
  | .timedOut marker _ => (.error .lockTimeout, { st with lock := marker })
  | .acquired mt _ =>
      let st1 : ResState := { st with lock := some mt }
      let data := read_json st1 dflt
      match fn data with
      | .error e => (.error (.transformError e), { st1 with lock := none })
      | .ok out =>
          let newData := out.getD data
          let st2 := rotate_backup ts st1
          (.ok out, { st2 with primary := some (.valid newData), lock := none })

-- ## Domain helpers (core/repo.py)

/-- `_deep_merge` (core/repo.py lines 411-424): start from a copy of
`existing` and fold in the entries of `incoming` in order; when both the
incoming value and the present value are dicts they merge recursively,
otherwise the incoming value replaces (or creates) the key. -/
def deepMerge : Obj → Obj → Obj
  | existing, [] => existing
  | existing, (k, v) :: rest =>
      match v, Obj.get existing k with
      | Json.obj vo, some (Json.obj ro) =>
          deepMerge (Obj.set existing k (Json.obj (deepMerge ro vo))) rest
      | _, _ => deepMerge (Obj.set existing k v) rest
termination_by _ l => sizeOf l
decreasing_by
  · simp only [Prod.mk.sizeOf_spec, List.cons.sizeOf_spec, Json.obj.sizeOf_spec]
    omega
  · simp only [List.cons.sizeOf_spec]
    omega
  · simp only [List.cons.sizeOf_spec]
    omega

/-- The argument-validation step of `upsert_thesis` (core/repo.py lines
431-434): extract `student_code` and `course_id` and raise `ValueError`
unless both are truthy. -/
def upsert_thesis_check (thesis : Obj) : Except String (Json × Json) :=
  let sc := (Obj.get thesis "student_code").getD .null
  let cid := (Obj.get thesis "course_id").getD .null
  if !jsonTruthy sc || !jsonTruthy cid then
    .error "thesis must include student_code and course_id"
  else .ok (sc, cid)

/-- The composite-key test
`th.get("student_code") == sc and th.get("course_id") == cid` shared by
`upsert_thesis`, `find_thesis` and `archive_defense`. -/
def thesisKeyMatch (th : Obj) (sc cid : Json) : Bool :=
  optEqJ (Obj.get th "student_code") sc && optEqJ (Obj.get th "course_id") cid

/-- The transform `_fn` of `upsert_thesis` (core/repo.py lines 436-447):
replace the first record whose `student_code` and `course_id` both equal
the candidate's with the deep merge of that record and the candidate;
if no record matches, append the candidate. -/
def upsertList (sc cid : Json) (thesis : Obj) : List Obj → List Obj
  | [] => [thesis]
  | th :: rest =>
      if thesisKeyMatch th sc cid then
        deepMerge th thesis :: rest
      else th :: upsertList sc cid thesis rest

-- ## Registration (core/repo.py)

/-- `_is_email` (core/repo.py line 298):
`bool(s) and ("@" in s) and (" " not in s)`, with the single-character
containment tests written on the string's character list. -/
def _is_email (s : String) : Bool :=
  (s != "") && s.toList.contains '@' && !(s.toList.contains ' ')

/-- Python `isinstance(x, str)` on a decoded JSON value. -/
def isStrJ : Json → Bool
  | .str _ => true
  | _ => false

/-- `validate_student` (core/repo.py lines 301-308): the three identity
fields must be strings; a truthy email must be well-formed per
`_is_email`.  (A truthy non-string email would raise `TypeError` in the
source; the records built by `register_student` always carry a string.) -/
def validate_student (r : Obj) : Bool × String :=
  let ok := isStrJ ((Obj.get r "name").getD (.str "")) &&
            isStrJ ((Obj.get r "student_code").getD (.str "")) &&
            isStrJ ((Obj.get r "password_hash").getD (.str ""))
  let email := (Obj.get r "email").getD (.str "")
  if jsonTruthy email &&
     !(match email with | .str s => _is_email s | _ => false) then
    (false, "Invalid student email")
  else (ok, "OK")

/-- The transform `_fn` of `register_student` (core/repo.py lines
342-359): raise `ValueError` if any record already has this
`student_code`; otherwise build the new record, validate it (raising on
failure), and append it.  `password_hash` stands for the output of the
external credential service `hash_password`, and `created_at` for the
`_now_iso()` timestamp. -/
def registerFn (name student_code password_hash email created_at : String)
    (students : List Obj) : Except String (List Obj) :=
  if students.any (fun s => optEqJ (Obj.get s "student_code") (.str student_code)) then
    .error "student_code already exists"
  else
    let newRec : Obj :=
      [("name", .str name),
       ("student_code", .str student_code),
       ("password_hash", .str password_hash),
       ("email", .str email),
       ("created_at", .str created_at),
       ("active", .bool true)]
    match validate_student newRec with
    | (true, _) => .ok (students ++ [newRec])
    | (false, msg) => .error ("Invalid student record: " ++ msg)

/-- Python `str(x)` on a decoded JSON value, as used by
`_normalize_judges` (non-integer rationals print as fractions rather
than decimal floats; judge codes are strings in every caller). -/
def pyStr : Json → String
  | .str s => s
  | .null => "None"
  | .bool true => "True"
  | .bool false => "False"
  | .num q => toString q
  | .arr _ => "[...]"
  | .obj _ => "{...}"

/-- Python `x or default` (returns `default` when `x` is falsy). -/
def jsonOr (x dflt : Json) : Json :=
  if jsonTruthy x then x else dflt

/-- `(j.get("role") or "").lower()`: lower-case a string role, raising
`AttributeError` on a truthy non-string. -/
def lowerRole (v : Json) : Except String String :=
  match jsonOr v (.str "") with
  | .str s => .ok s.toLower
  | _ => .error "AttributeError: lower"

/-- Python `isinstance(x, (str, int))` (`bool` is a subclass of `int`;
integer-valued numbers stand for ints in the rational model). -/
def isStrOrInt : Json → Bool
  | .str _ => true
  | .num q => q.den == 1
  | .bool _ => true
  | _ => false

/-- Python `isinstance` guard plus record access used by every `_fn` and
by `_normalize_judges`: a non-list document is replaced by `[]`; a list
element that is not a dict raises `AttributeError` when its fields are
read. -/
def asObj : Json → Except String Obj
  | .obj o => .ok o
  | _ => .error "AttributeError"

/-- The `role_map` loop of `_normalize_judges` (core/repo.py lines
501-507) over a list of judge dicts. -/
def roleMapLoop : List Obj → Except String (Option String × Option String)
  | [] => .ok (none, none)
  | j :: rest => do
      let r ← lowerRole ((Obj.get j "role").getD .null)
      let c := pyStr (jsonOr ((Obj.get j "code").getD .null) (.str ""))
      let (i, e) ← roleMapLoop rest
      if r == "internal" then
        pure (some ((i.getD c)), e)
      else if r == "external" then
        pure (i, some (e.getD c))
      else
        pure (i, e)

/-- `_normalize_judges` (core/repo.py lines 486-512): normalize a dict,
a list of role dicts, or a list of two codes to
`{"internal": code, "external": code}`; anything else maps to empty
codes. -/
def normalize_judges (judges : Json) : Except String Obj :=
  match judges with
  | .obj o =>
      .ok [("internal", .str (pyStr ((Obj.get o "internal").getD (.str "")))),
           ("external", .str (pyStr ((Obj.get o "external").getD (.str ""))))]
  | .arr js =>
      match js with
      | (Json.obj j0) :: rest => do
          let objs ← (Json.obj j0 :: rest).mapM asObj
          let (i, e) ← roleMapLoop objs
          pure [("internal", .str (i.getD "")), ("external", .str (e.getD ""))]
      | _ =>
          if js.length ≥ 2 && (js.take 2).all isStrOrInt then
            .ok [("internal", .str (pyStr (js.getD 0 .null))),
                 ("external", .str (pyStr (js.getD 1 .null)))]
          else
            .ok [("internal", .str ""), ("external", .str "")]
  | _ => .ok [("internal", .str ""), ("external", .str "")]

-- ## Scores and grades (core/rules.py)

/-- `ensure_score_range` (core/rules.py): raise `ValueError` unless the
score lies in [0, 20]; no clamping. -/
def ensure_score_range (s : ℚ) : Except String ℚ :=
  if s < 0 ∨ s > 20 then .error "Score must be between 0 and 20" else .ok s

/-- Python `round(x, 2)`: round to two decimals, ties to even (the
rational idealization of float rounding). -/
def round2 (q : ℚ) : ℚ :=
  let x := q * 100
  let f : ℤ := x.floor
  let r := x - f
  let n : ℤ :=
    if r < 1 / 2 then f
    else if r > 1 / 2 then f + 1
    else if f % 2 = 0 then f else f + 1
  (n : ℚ) / 100

/-- `grade_letter` (core/rules.py): A on [17,20], B on [13,17),
C on [10,13), else D. -/
def grade_letter (s : ℚ) : String :=
  if 17 ≤ s ∧ s ≤ 20 then "A"
  else if 13 ≤ s ∧ s < 17 then "B"
  else if 10 ≤ s ∧ s < 13 then "C"
  else "D"

/-- `grade_letter_fa` (core/rules.py): Persian translation of the grade
letter (total because `grade_letter` only returns the four keys of the
translation dict). -/
def grade_letter_fa (s : ℚ) : String :=
  let g := grade_letter s
  if g == "A" then "الف"
  else if g == "B" then "ب"
  else if g == "C" then "ج"
  else "د"

/-- Lookup in the `scores: Dict[str, float]` argument. -/
def scoresGet (scores : List (String × ℚ)) (k : String) : Option ℚ :=
  (scores.find? (fun p => p.1 == k)).map (fun p => p.2)

/-- The record built by `archive_defense` (core/repo.py lines 530-550)
before the archive transform runs: validate the three scores, average
and round them, grade the average, normalize the judges, and assemble
the archived record.  `finalized_at` stands for `_now_iso()`. -/
def buildDefenseRec (student_code course_id title : String) (year : ℤ)
    (semester : String) (supervisor_code : String) (judges : Json)
    (scores : List (String × ℚ)) (attendees : Option (List Json))
    (files : List (String × Json)) (finalized_at : String) :
    Except String Obj := do
  let s_sup ← ensure_score_range ((scoresGet scores "supervisor").getD 0)
  let s_int ← ensure_score_range ((scoresGet scores "internal").getD 0)
  let s_ext ← ensure_score_range ((scoresGet scores "external").getD 0)
  let avg := round2 ((s_sup + s_int + s_ext) / 3)
  let judgesN ← normalize_judges judges
  pure [("student_code", .str student_code),
        ("course_id", .str course_id),
        ("title", .str title),
        ("year", .num (year : ℚ)),
        ("semester", .str semester),
        ("supervisor", .str supervisor_code),
        ("judges", .obj judgesN),
        ("scores", .obj [("supervisor", .num s_sup), ("internal", .num s_int),
                         ("external", .num s_ext)]),
        ("score", .num avg),
        ("grade_letter", .str (grade_letter avg)),
        ("grade_letter_fa", .str (grade_letter_fa avg)),
        ("attendees", .arr (attendees.getD [])),
        ("files", .obj files),
        ("finalized_at", .str finalized_at)]

/-- The transform `_fn` of `archive_defense` (core/repo.py lines
552-558): drop every record with the same `(student_code, course_id)`
composite key, then append the freshly built record. -/
def archiveFn (student_code course_id : String) (recNew : Obj)
    (archive : List Obj) : List Obj :=
  (archive.filter (fun r =>
      !(thesisKeyMatch r (.str student_code) (.str course_id)))) ++ [recNew]

-- ## Lifting list transforms into `update_atomic`

/-- Decode the resource document into a list of records (see `asObj`). -/
def toRecords : Json → Except String (List Obj)
  | .arr xs => xs.mapM asObj
  | _ => .ok []

/-- Lift a record-list transform to a document transform as the `_fn`
closures do: decode, transform, and return the new list to persist. -/
def liftFn (f : List Obj → Except String (List Obj)) :
    Json → Except String (Option Json) :=
  fun data => do
    let recs ← toRecords data
    let out ← f recs
    pure (some (.arr (out.map Json.obj)))

/-- `register_student` persisting through `update_atomic` on
`students.json` (core/repo.py lines 340-367). -/
def register_student (fuel : Nat) (now : ℚ) (ts : Nat) (st : ResState)
    (name student_code password_hash : String) (email : Option String)
    (created_at : String) : Except RepoErr (Option Json) × ResState :=
  update_atomic fuel now ts st (.arr [])
    (liftFn (registerFn name student_code password_hash (email.getD "") created_at))

/-- `archive_defense` (core/repo.py lines 514-564): build the archived
record (its score validation may raise before the file is touched, which
the outer `Except` captures), then persist it through `update_atomic` on
`defended_thesis.json`, replacing any record with the same composite key. -/
def archive_defense (fuel : Nat) (now : ℚ) (ts : Nat) (st : ResState)
    (student_code course_id title : String) (year : ℤ) (semester : String)
    (supervisor_code : String) (judges : Json) (scores : List (String × ℚ))
    (attendees : Option (List Json)) (files : List (String × Json))
    (finalized_at : String) :
    Except String (Except RepoErr (Option Json) × ResState) :=
  (buildDefenseRec student_code course_id title year semester supervisor_code
      judges scores attendees files finalized_at).map
    (fun recNew =>
      update_atomic fuel now ts st (.arr [])
        (liftFn (fun archive => .ok (archiveFn student_code course_id recNew archive))))

-- ## Repeated writes (for the backup-retention property)

/-- A sequence of `write_json` calls on one resource, each given its
wall-clock timestamp for the backup slot name (the lock is free between
calls, so fuel 1 suffices for each acquisition). -/
def writeSeq (st : ResState) : List (Nat × Json) → ResState
  | [] => st
  | (ts, d) :: rest =>
      match write_json 1 0 ts st d with
      | .ok st1 => writeSeq st1 rest
      | .error _ => st

/-- The pre-write snapshots produced by a write sequence, newest first:
the write at time `ts` snapshots the content the resource had just
before it (`c` for the first write, then each previous write's data). -/
def snapDesc (c : FileContent) : List (Nat × Json) → List (Nat × FileContent)
  | [] => []
  | (ts, d) :: rest => snapDesc (.valid d) rest ++ [(ts, c)]

/-- The document held by the primary file after a write sequence
(`d` if the sequence is empty). -/
def lastData (d : Json) : List (Nat × Json) → Json
  | [] => d
  | (_, d1) :: rest => lastData d1 rest

-- ## Copy with rollback (core/files.py)

/-- Sidecar hash file name: `<filename>.sha256`. -/
def sidecarName (p : String) : String := p ++ ".sha256"

/-- Creating a file in a directory (`fs` is the set of file names,
kept in creation order). -/
def fsAdd (fs : List String) (p : String) : List String :=
  if fs.contains p then fs else fs ++ [p]

/-- `unlink(missing_ok=True)`. -/
def fsDel (fs : List String) (p : String) : List String :=
  fs.filter (fun q => q != p)

/-- Outcome of one `_atomic_copy` call: success, failure before the
temporary file exists (e.g. opening the source fails), or failure after
it was created (e.g. mid-copy disk error, failed rename) -- in the last
case the temporary file stays behind, since `_atomic_copy` has no
cleanup handler. -/
inductive CopyRes where
  | ok
  | failEarly
  | failLate
deriving Repr, DecidableEq

/-- Outcome of the sidecar write `_write_sidecar_hash` →
`_atomic_write_text` (core/files.py lines 158-168 and 198-203): the
write succeeds (the sidecar appears), or fails before its own temporary
file exists, or fails after creating it (mid-write error or failed
rename), in which case that temporary file stays behind.
`_write_sidecar_hash` swallows the exception in every failure case, so
the copy loop continues regardless of the outcome. -/
inductive SideRes where
  | wrote
  | failEarly
  | failLate
deriving Repr, DecidableEq

/-- One iteration of the copy loop of `validate_and_copy`: the
destination name, the fresh temporary name `_atomic_copy` draws, the
copy's outcome, the fresh temporary name the sidecar write draws, and
the sidecar write's outcome. -/
structure Job where
  dst : String
  tmp : String
  res : CopyRes
  stmp : String
  sres : SideRes
deriving Repr, DecidableEq

/-- `_atomic_copy` (core/files.py lines 141-156) at file-name
granularity: on success the destination appears (the temporary name is
transient); on failure an exception propagates, leaving the destination
untouched and, in the `failLate` case, the temporary file on disk. -/
def atomicCopy (fs : List String) (tmp dst : String) :
    CopyRes → Except (List String) (List String)
  | .ok => .ok (fsAdd fs dst)
  | .failEarly => .error fs
  | .failLate => .error (fsAdd fs tmp)

/-- `_write_sidecar_hash` (core/files.py lines 198-203) at file-name
granularity: on success the sidecar file appears; on failure the
exception is swallowed and nothing appears, except that a late failure
of the underlying `_atomic_write_text` leaves the write's own temporary
file behind. -/
def writeSidecar (fs : List String) (stmp side : String) :
    SideRes → List String
  | .wrote => fsAdd fs side
  | .failEarly => fs
  | .failLate => fsAdd fs stmp

/-- The copy loop of `validate_and_copy` (core/files.py lines 305-318):
for each destination, if it does not already exist, copy atomically,
write the sidecar hash best-effort, and record the destination in
`created`.  Returns the directory contents, the `created` list, and
whether the loop completed without an exception. -/
def copyLoop (fs : List String) (created : List String) :
    List Job → List String × List String × Bool
  | [] => (fs, created, true)
  | j :: rest =>
      if fs.contains j.dst then copyLoop fs created rest
      else
        match atomicCopy fs j.tmp j.dst j.res with
        | .ok fs1 =>
            copyLoop (writeSidecar fs1 j.stmp (sidecarName j.dst) j.sres)
              (created ++ [j.dst]) rest
        | .error fs1 => (fs1, created, false)

/-- The copy phase of `validate_and_copy` with its rollback handler
(core/files.py lines 304-328): on an exception, unlink every destination
file created in this call and its sidecar, newest first, then re-raise. -/
def copyWithRollback (fs0 : List String) (jobs : List Job) :
    List String × Bool :=
  match copyLoop fs0 [] jobs with
  | (fs1, _, true) => (fs1, true)
  | (fs1, created, false) =>
      (created.reverse.foldl
        (fun fs p => fsDel (fsDel fs p) (sidecarName p)) fs1, false)

/-- The directory entries a completed loop iteration leaves for job `j`:
the destination, plus its sidecar if the sidecar write succeeded, or the
sidecar write's orphaned temporary file if it failed late. -/
def jobEntries (j : Job) : List String :=
  j.dst :: (match j.sres with
    | .wrote => [sidecarName j.dst]
    | .failEarly => []
    | .failLate => [j.stmp])

/-- All directory entries left by a list of completed loop iterations. -/
def entries (done : List Job) : List String := done.flatMap jobEntries

/-- The orphaned sidecar-write temporaries among completed iterations:
exactly the entries the rollback handler does not delete. -/
def orphans (done : List Job) : List String :=
  (done.filter (fun j => j.sres == SideRes.failLate)).map Job.stmp

/-- Freshness/distinctness assumptions matching the real layout of
`validate_and_copy`'s jobs: temporary names (of both `_atomic_copy` and
the sidecar write) carry a fresh UUID, so they collide with nothing;
destination files are never named like sidecars (`.pdf`/`.jpg` targets
versus `.sha256` suffix); distinct destinations have distinct sidecars
and distinct sidecar temporaries; and a destination absent from the
directory has no orphaned sidecar. -/
def goodJobs (fs0 : List String) (jobs : List Job) : Prop :=
  (∀ j ∈ jobs, ∀ j2 ∈ jobs,
    j.tmp ≠ j2.dst ∧ j.tmp ≠ sidecarName j2.dst ∧ j.tmp ≠ j2.stmp ∧
    j.dst ≠ sidecarName j2.dst ∧
    j.stmp ≠ j2.dst ∧ j.stmp ≠ sidecarName j2.dst ∧
    (j.dst ≠ j2.dst → sidecarName j.dst ≠ sidecarName j2.dst) ∧
    (j.dst ≠ j2.dst → j.stmp ≠ j2.stmp)) ∧
  (∀ j ∈ jobs, j.tmp ∉ fs0 ∧ j.stmp ∉ fs0 ∧
    (j.dst ∉ fs0 → sidecarName j.dst ∉ fs0))

-- ## Statement-side helper definitions

/-- The per-key replacement policy of `_deep_merge`: an incoming dict
merges recursively into an existing dict; any other incoming value
(scalar or array, or a dict landing on a non-dict) replaces wholesale. -/
def mergeValue (old : Option Json) (v : Json) : Json :=
  match v, old with
  | .obj vo, some (.obj ro) => .obj (deepMerge ro vo)
  | _, _ => v

/-- Specification of the read-fallback contract of claim C3: the result
is the content of a parsing backup snapshot whose timestamp is maximal
among parsing snapshots, or every snapshot fails to parse and the result
is the declared (container-guarded) default. -/
def readFallbackSpec (st : ResState) (dflt : Json) (res : Json) : Prop :=
  (∃ ts j, (ts, FileContent.valid j) ∈ st.backups ∧ res = j ∧
      ∀ ts2 j2, (ts2, FileContent.valid j2) ∈ st.backups → ts2 ≤ ts)
  ∨ ((∀ p ∈ st.backups, p.2 = FileContent.corrupt) ∧ res = guardDefault dflt)

/-- The resource state after a successful `update_atomic` that persisted
document `j`: rotated backups, new primary content, lock released. -/
def postUpdateState (ts : Nat) (now : ℚ) (st : ResState) (j : Json) :
    ResState :=
  ⟨some (.valid j),
   (rotate_backup ts { st with lock := some now }).backups, none⟩

-- ## Claim C1: transform failure leaves state untouched

/-- Error path of `update_atomic` once the lock is acquired: the
transform's exception is re-raised, nothing is written, the lock is
released. -/
theorem update_atomic_error_case (fuel : Nat) (now : ℚ) (ts : Nat)
    (st : ResState) (dflt : Json) (fn : Json → Except String (Option Json))
    (e : String) (mt t : ℚ)
    (hacq : acquireLoop fuel now LOCK_TIMEOUT_SEC now st.lock = .acquired mt t)
    (hfn : fn (read_json st dflt) = .error e) :
    update_atomic fuel now ts st dflt fn =
      (.error (.transformError e),
       { primary := st.primary, backups := st.backups, lock := none }) := by
  have h2 : fn (read_json { st with lock := some mt } dflt) = Except.error e := hfn
  simp only [update_atomic, hacq, h2]

/-- C1: for every resource state and transform `fn` that raises, once the
lock is acquired `update_atomic` propagates the transform's exception to
the caller, performs no write (primary file and backups are exactly as
before the call), and the lock is released. -/
theorem update_atomic_transform_failure_preserves_state (fuel : Nat)
    (now : ℚ) (ts : Nat) (st : ResState) (dflt : Json)
    (fn : Json → Except String (Option Json)) (e : String) (mt t : ℚ)
    (hacq : acquireLoop fuel now LOCK_TIMEOUT_SEC now st.lock = .acquired mt t)
    (hfn : fn (read_json st dflt) = .error e) :
    update_atomic fuel now ts st dflt fn =
      (.error (.transformError e),
       { primary := st.primary, backups := st.backups, lock := none }) :=
  update_atomic_error_case fuel now ts st dflt fn e mt t hacq hfn

/-- Witness for C1 at a concrete resource state and failing transform. -/
theorem update_atomic_transform_failure_witness :
    update_atomic 1 0 7 ⟨some (.valid (.arr [])), [], none⟩ (.arr [])
        (fun _ => .error "boom") =
      (.error (.transformError "boom"),
       ⟨some (.valid (.arr [])), [], none⟩) :=
  update_atomic_transform_failure_preserves_state 1 0 7
    ⟨some (.valid (.arr [])), [], none⟩ (.arr []) (fun _ => .error "boom")
    "boom" 0 0 rfl rfl

-- ## Claim C2: write/read round-trip

/-- C2: whenever `write_json` returns successfully, the resource file
holds a well-formed document of exactly the written content, and a
subsequent `read_json` returns exactly that content. -/
theorem write_json_read_json_roundtrip (fuel : Nat) (now : ℚ) (ts : Nat)
    (st st1 : ResState) (data dflt : Json)
    (h : write_json fuel now ts st data = .ok st1) :
    st1.primary = some (.valid data) ∧ read_json st1 dflt = data := by
  unfold write_json at h
  cases hacq : acquireLoop fuel now LOCK_TIMEOUT_SEC now st.lock with
  | fuelOut mk t => rw [hacq] at h; simp at h
  | timedOut mk t => rw [hacq] at h; simp at h
  | acquired mt t =>
      rw [hacq] at h
      injection h with h1
      subst h1
      exact ⟨rfl, rfl⟩

/-- Witness for C2 at a concrete write. -/
theorem write_json_read_json_roundtrip_witness :
    (⟨some (.valid (.num 3)), [], none⟩ : ResState).primary =
        some (.valid (.num 3)) ∧
      read_json ⟨some (.valid (.num 3)), [], none⟩ (.arr []) = .num 3 :=
  write_json_read_json_roundtrip 1 0 7 ⟨none, [], none⟩
    ⟨some (.valid (.num 3)), [], none⟩ (.num 3) (.arr []) rfl

-- ## Claim C4: stale-lock recovery

/-- C4: if the lock marker exists with age beyond `STALE_LOCK_SEC` when
`_acquire_lock` is called and no competitor intervenes, the marker is
deleted and acquisition succeeds at the very first retry -- the final
clock equals the start clock, so no sleep happens and no part of the
acquisition timeout is consumed (the timeout argument is arbitrary). -/
theorem acquire_lock_stale_marker_recovery (fuel : Nat)
    (start m timeout : ℚ) (hfuel : 2 ≤ fuel)
    (hstale : start - m > STALE_LOCK_SEC) :
    acquireLoop fuel start timeout start (some m) = .acquired start start := by
  obtain ⟨f, rfl⟩ : ∃ f, fuel = f + 2 := ⟨fuel - 2, by omega⟩
  simp [acquireLoop, hstale]

/-- Witness for C4: a marker aged 100s is seized immediately even with a
5s timeout. -/
theorem acquire_lock_stale_marker_recovery_witness :
    acquireLoop 2 100 5 100 (some 0) = .acquired 100 100 :=
  acquire_lock_stale_marker_recovery 2 100 0 5 (by norm_num)
    (by norm_num [STALE_LOCK_SEC])

-- ## Claim C5: lock timeout

/-- Helper for C5: while a never-stale marker is held for the whole
attempt, the acquire loop keeps sleeping and raises `TimeoutError` as
soon as the elapsed wait exceeds the timeout, leaving the marker in
place.  The fuel bound guarantees the loop is not cut short by the
model's fuel. -/
theorem acquireLoop_timeout_aux (m start : ℚ)
    (hstale : start + LOCK_TIMEOUT_SEC + LOCK_SLEEP_SEC - m ≤ STALE_LOCK_SEC) :
    ∀ (f : Nat) (now : ℚ),
      now ≤ start + LOCK_TIMEOUT_SEC + LOCK_SLEEP_SEC →
      LOCK_TIMEOUT_SEC - (now - start) < (f : ℚ) * LOCK_SLEEP_SEC →
      ∃ t, acquireLoop (f + 1) start LOCK_TIMEOUT_SEC now (some m) =
          .timedOut (some m) t ∧ t - start > LOCK_TIMEOUT_SEC := by
  intro f
  induction f with
  | zero =>
      intro now hnow hfuel
      have h1 : ¬ now - m > STALE_LOCK_SEC := by linarith
      have h2 : now - start > LOCK_TIMEOUT_SEC := by
        simp only [Nat.cast_zero, zero_mul] at hfuel
        linarith
      exact ⟨now, by simp [acquireLoop, h1, h2], h2⟩
  | succ f ih =>
      intro now hnow hfuel
      have h1 : ¬ now - m > STALE_LOCK_SEC := by linarith
      by_cases hto : now - start > LOCK_TIMEOUT_SEC
      · exact ⟨now, by simp [acquireLoop, h1, hto], hto⟩
      · push_neg at hto
        have hnow2 : now + LOCK_SLEEP_SEC ≤
            start + LOCK_TIMEOUT_SEC + LOCK_SLEEP_SEC := by linarith
        have hfuel2 : LOCK_TIMEOUT_SEC - (now + LOCK_SLEEP_SEC - start) <
            (f : ℚ) * LOCK_SLEEP_SEC := by
          push_cast at hfuel
          linarith
        obtain ⟨t, ht, htgt⟩ := ih (now + LOCK_SLEEP_SEC) hnow2 hfuel2
        refine ⟨t, ?_, htgt⟩
        have hto2 : ¬ now - start > LOCK_TIMEOUT_SEC := not_lt.mpr hto
        simp only [acquireLoop]
        rw [if_neg h1, if_neg hto2]
        exact ht

/-- C5: if the resource's lock marker is held and never goes stale
during the attempt, `_acquire_lock` fails with `TimeoutError` once the
total elapsed wait exceeds `LOCK_TIMEOUT_SEC`, and the caller's
`update_atomic` performs no read and no write: it returns the
lock-timeout error with the resource state exactly as before the call. -/
theorem lock_timeout_no_read_write (fuel : Nat) (now m : ℚ) (ts : Nat)
    (st : ResState) (dflt : Json) (fn : Json → Except String (Option Json))
    (hlock : st.lock = some m)
    (hfresh : now + LOCK_TIMEOUT_SEC + LOCK_SLEEP_SEC - m ≤ STALE_LOCK_SEC)
    (hfuel : LOCK_TIMEOUT_SEC < (fuel : ℚ) * LOCK_SLEEP_SEC) :
    ∃ t, acquireLoop (fuel + 1) now LOCK_TIMEOUT_SEC now st.lock =
        .timedOut (some m) t ∧ t - now > LOCK_TIMEOUT_SEC ∧
      update_atomic (fuel + 1) now ts st dflt fn = (.error .lockTimeout, st) := by
  have hTS : (0 : ℚ) ≤ LOCK_TIMEOUT_SEC + LOCK_SLEEP_SEC := by
    norm_num [LOCK_TIMEOUT_SEC, LOCK_SLEEP_SEC]
  obtain ⟨t, ht, htgt⟩ := acquireLoop_timeout_aux m now hfresh fuel now
    (by linarith) (by simpa using hfuel)
  refine ⟨t, by rw [hlock]; exact ht, htgt, ?_⟩
  simp only [update_atomic]
  rw [hlock, ht, ← hlock]

/-- Witness for C5: a marker of age 0 with fuel for 201 polls. -/
theorem lock_timeout_no_read_write_witness :
    ∃ t, acquireLoop (201 + 1) 0 LOCK_TIMEOUT_SEC 0
        ((⟨none, [], some 0⟩ : ResState).lock) = .timedOut (some 0) t ∧
      t - 0 > LOCK_TIMEOUT_SEC ∧
      update_atomic (201 + 1) 0 3 ⟨none, [], some 0⟩ (.arr [])
          (fun d => .ok (some d)) =
        (.error .lockTimeout, ⟨none, [], some 0⟩) :=
  lock_timeout_no_read_write 201 0 0 3 ⟨none, [], some 0⟩ (.arr [])
    (fun d => .ok (some d)) rfl
    (by norm_num [LOCK_TIMEOUT_SEC, LOCK_SLEEP_SEC, STALE_LOCK_SEC])
    (by norm_num [LOCK_TIMEOUT_SEC, LOCK_SLEEP_SEC])

-- ## Claim C3: corruption recovery on read

/-- Splitting lemma: when the fallback scan returns a document, the
scanned list is a run of corrupt snapshots followed by the snapshot that
produced the document. -/
theorem firstValid_eq_some_split {l : List (Nat × FileContent)} {j : Json}
    (h : firstValid l = some j) :
    ∃ l1 ts l2, l = l1 ++ (ts, .valid j) :: l2 ∧
      ∀ p ∈ l1, p.2 = FileContent.corrupt := by
  induction l with
  | nil => cases h
  | cons hd tl ih =>
      obtain ⟨ts0, c0⟩ := hd
      cases c0 with
      | valid j0 =>
          simp only [firstValid, Option.some.injEq] at h
          exact ⟨[], ts0, tl, by simp [h], by simp⟩
      | corrupt =>
          obtain ⟨l1, ts, l2, heq, hcor⟩ := ih h
          refine ⟨(ts0, .corrupt) :: l1, ts, l2, by simp [heq], ?_⟩
          intro p hp
          rcases List.mem_cons.mp hp with rfl | hp2
          · rfl
          · exact hcor p hp2

/-- When the fallback scan finds nothing, every snapshot is corrupt. -/
theorem firstValid_eq_none_all_corrupt {l : List (Nat × FileContent)}
    (h : firstValid l = none) : ∀ p ∈ l, p.2 = FileContent.corrupt := by
  induction l with
  | nil => simp
  | cons hd tl ih =>
      obtain ⟨ts0, c0⟩ := hd
      cases c0 with
      | valid j0 => simp [firstValid] at h
      | corrupt =>
          intro p hp
          rcases List.mem_cons.mp hp with rfl | hp2
          · rfl
          · exact ih h p hp2

/-- Core of C3: the newest-first backup scan satisfies the fallback
contract. -/
theorem backupScan_spec (B : List (Nat × FileContent)) (dflt : Json) :
    readFallbackSpec ⟨none, B, none⟩ dflt (read_json ⟨none, B, none⟩ dflt) := by
  cases hfv : firstValid (sortBk B) with
  | none =>
      right
      constructor
      · intro p hp
        exact firstValid_eq_none_all_corrupt hfv p
          ((List.mem_insertionSort bkGE).mpr hp)
      · show (match firstValid (sortBk B) with
          | some j => j | none => guardDefault dflt) = guardDefault dflt
        rw [hfv]
  | some j =>
      left
      obtain ⟨l1, ts, l2, heq, hcor⟩ := firstValid_eq_some_split hfv
      have hsorted : List.Sorted bkGE (sortBk B) :=
        List.sorted_insertionSort bkGE B
      have hmem : (ts, FileContent.valid j) ∈ sortBk B := by rw [heq]; simp
      refine ⟨ts, j, (List.mem_insertionSort bkGE).mp hmem, ?_, ?_⟩
      · show (match firstValid (sortBk B) with
          | some j => j | none => guardDefault dflt) = j
        rw [hfv]
      · intro ts2 j2 hmem2
        have hmem2s : (ts2, FileContent.valid j2) ∈ sortBk B :=
          (List.mem_insertionSort bkGE).mpr hmem2
        rw [heq] at hmem2s hsorted
        rcases List.mem_append.mp hmem2s with hin1 | hin2
        · have := hcor _ hin1
          simp at this
        · rcases List.mem_cons.mp hin2 with heq2 | hin3
          · exact le_of_eq (congrArg Prod.fst heq2)
          · have hp := (List.pairwise_append.mp hsorted).2.1
            exact (List.pairwise_cons.mp hp).1 _ hin3

/-- C3: whenever the primary file fails to parse, `read_json` returns
the newest backup snapshot that parses, or the declared empty default if
none does -- and being a total function it returns a value in every
case, never an exception. -/
theorem read_json_fallback_recovery (st : ResState) (dflt : Json)
    (h : ∀ j, st.primary ≠ some (.valid j)) :
    readFallbackSpec st dflt (read_json st dflt) := by
  obtain ⟨prim, B, lk⟩ := st
  rcases prim with _ | c
  · exact backupScan_spec B dflt
  · rcases c with _ | j
    · exact backupScan_spec B dflt
    · exact absurd rfl (h j)

/-- Witness for C3: corrupt primary, two parsing backups and a corrupt
one; the newest parsing snapshot (timestamp 5) wins. -/
theorem read_json_fallback_recovery_witness :
    readFallbackSpec
      ⟨some .corrupt, [(3, .corrupt), (5, .valid (.num 7)), (4, .valid (.num 1))], none⟩
      (.arr [])
      (read_json
        ⟨some .corrupt, [(3, .corrupt), (5, .valid (.num 7)), (4, .valid (.num 1))], none⟩
        (.arr [])) :=
  read_json_fallback_recovery _ _ (by intro j hj; cases hj)

-- ## Claim C6: backup retention

/-- A backup slot named with a fresh timestamp (strictly newer than all
existing slots) is a new directory entry. -/
theorem setBackup_fresh (B : List (Nat × FileContent)) (ts : Nat)
    (c : FileContent) (h : ∀ p ∈ B, p.1 < ts) :
    setBackup B ts c = (ts, c) :: B := by
  have hany : B.any (fun p => p.1 == ts) = false := by
    rw [List.any_eq_false]
    intro p hp
    simpa using Nat.ne_of_lt (h p hp)
  unfold setBackup
  rw [hany]
  simp

/-- Sorting after adding a snapshot with a fresh maximal timestamp puts
it in front. -/
theorem sortBk_fresh (B : List (Nat × FileContent)) (ts : Nat)
    (c : FileContent) (h : ∀ p ∈ B, p.1 < ts) :
    sortBk (setBackup B ts c) = (ts, c) :: sortBk B := by
  rw [setBackup_fresh B ts c h]
  exact List.insertionSort_cons bkGE (fun b hb => le_of_lt (h b hb))

/-- One locked write on a resource with a fresh timestamp: the pre-write
content becomes the newest backup slot and the slots beyond the
retention count are pruned. -/
theorem write_json_step (now : ℚ) (ts : Nat) (c : FileContent)
    (B : List (Nat × FileContent)) (d : Json) (h : ∀ p ∈ B, p.1 < ts) :
    write_json 1 now ts ⟨some c, B, none⟩ d =
      .ok ⟨some (.valid d),
           ((ts, c) :: sortBk B).take BACKUP_RETAIN_PER_FILE, none⟩ := by
  unfold write_json rotate_backup
  simp only [acquireLoop]
  rw [sortBk_fresh B ts c h]
  simp [BACKUP_RETAIN_PER_FILE]

/-- Taking `n` of an append absorbs an inner `take n`. -/
theorem take_append_absorb {α : Type} (n : ℕ) (X Y : List α) :
    (X ++ Y.take n).take n = (X ++ Y).take n := by
  rw [List.take_append_eq_append_take, List.take_append_eq_append_take,
      List.take_take, min_eq_left (Nat.sub_le n X.length)]

/-- The content written last is independent of the base value for a
nonempty write sequence. -/
theorem lastData_irrel (a b : Json) :
    ∀ ws : List (Nat × Json), ws ≠ [] → lastData a ws = lastData b ws
  | [], h => absurd rfl h
  | (_, _) :: _, _ => rfl

/-- `snapDesc` produces one snapshot per write. -/
theorem snapDesc_length (c : FileContent) :
    ∀ ws : List (Nat × Json), (snapDesc c ws).length = ws.length
  | [] => rfl
  | (ts, d) :: rest => by
      simp [snapDesc, snapDesc_length (.valid d) rest]

/-- Master lemma for C6: a nonempty sequence of locked writes with
strictly increasing fresh timestamps leaves the last write's data in the
primary file, the lock free, and as backups the ten newest pre-write
snapshots followed by the sorted old slots, truncated to the retention
count. -/
theorem writeSeq_spec (ws : List (Nat × Json)) :
    ∀ (c0 : FileContent) (B : List (Nat × FileContent)),
      ws ≠ [] →
      (∀ p ∈ B, ∀ w ∈ ws, p.1 < w.1) →
      (ws.map Prod.fst).Pairwise (· < ·) →
      writeSeq ⟨some c0, B, none⟩ ws =
        ⟨some (.valid (lastData .null ws)),
         (snapDesc c0 ws ++ sortBk B).take BACKUP_RETAIN_PER_FILE, none⟩ := by
  induction ws with
  | nil => intro c0 B hne _ _; exact absurd rfl hne
  | cons w rest ih =>
      obtain ⟨t1, d1⟩ := w
      intro c0 B _ hB hinc
      have hfreshB : ∀ p ∈ B, p.1 < t1 :=
        fun p hp => hB p hp (t1, d1) (List.mem_cons_self _ _)
      have hstep := write_json_step 0 t1 c0 B d1 hfreshB
      rcases eq_or_ne rest [] with hrest | hrest
      · subst hrest
        simp only [writeSeq, hstep, snapDesc, lastData]
        rfl
      · -- properties of the state after the first write
        have hsorted1 : List.Sorted bkGE ((t1, c0) :: sortBk B) := by
          rw [List.sorted_cons]
          exact ⟨fun b hb =>
              le_of_lt (hfreshB b ((List.mem_insertionSort bkGE).mp hb)),
            List.sorted_insertionSort bkGE B⟩
        have hsortedB1 :
            List.Sorted bkGE (((t1, c0) :: sortBk B).take BACKUP_RETAIN_PER_FILE) :=
          List.Pairwise.sublist (List.take_sublist _ _) hsorted1
        have hB1 : ∀ p ∈ ((t1, c0) :: sortBk B).take BACKUP_RETAIN_PER_FILE,
            ∀ w2 ∈ rest, p.1 < w2.1 := by
          intro p hp w2 hw2
          have hp2 : p ∈ (t1, c0) :: sortBk B :=
            (List.take_sublist _ _).mem hp
          rcases List.mem_cons.mp hp2 with rfl | hp3
          · have : t1 < w2.1 := by
              have := (List.pairwise_cons.mp hinc).1 w2.1
                (List.mem_map_of_mem Prod.fst hw2)
              exact this
            exact this
          · exact hB p ((List.mem_insertionSort bkGE).mp hp3) w2
              (List.mem_cons_of_mem _ hw2)
        have hinc2 : (rest.map Prod.fst).Pairwise (· < ·) :=
          (List.pairwise_cons.mp hinc).2
        have hih := ih (.valid d1)
          (((t1, c0) :: sortBk B).take BACKUP_RETAIN_PER_FILE) hrest hB1 hinc2
        simp only [writeSeq, hstep]
        rw [hih]
        have hsB1 : sortBk (((t1, c0) :: sortBk B).take BACKUP_RETAIN_PER_FILE) =
            ((t1, c0) :: sortBk B).take BACKUP_RETAIN_PER_FILE :=
          hsortedB1.insertionSort_eq
        rw [hsB1, take_append_absorb]
        simp only [snapDesc, List.append_assoc, List.singleton_append, lastData]
        rw [lastData_irrel Json.null d1 rest hrest]

/-- Counterexample for C6 as stated: backup slot names have one-second
resolution (`%Y%m%d-%H%M%S`), so eleven successive writes within the
same clock second keep overwriting a single slot (`shutil.copy2` onto
the same name): after `K = 11 > 10` writes exactly one snapshot remains,
not ten. -/
theorem backup_retention_same_second_counterexample :
    (writeSeq ⟨some (.valid (.num 0)), [], none⟩
        [(5, .num 1), (5, .num 2), (5, .num 3), (5, .num 4), (5, .num 5),
         (5, .num 6), (5, .num 7), (5, .num 8), (5, .num 9), (5, .num 10),
         (5, .num 11)]).backups = [(5, .valid (.num 10))] ∧
      ([(5, Json.num 1), (5, .num 2), (5, .num 3), (5, .num 4), (5, .num 5),
        (5, .num 6), (5, .num 7), (5, .num 8), (5, .num 9), (5, .num 10),
        (5, .num 11)] : List (Nat × Json)).length = 11 :=
  ⟨rfl, rfl⟩

/-- C6 (amended): after `K ≥ BACKUP_RETAIN_PER_FILE` successive locked
writes to one resource whose backup timestamps are strictly increasing
(no two writes within the same clock second) and newer than any
pre-existing slot, exactly `BACKUP_RETAIN_PER_FILE` backup snapshots
remain, and they are the snapshots of the most recent pre-write states,
newest first -- pruning deleted the older slots. -/
theorem backup_retention_after_writes (st : ResState) (c0 : FileContent)
    (ws : List (Nat × Json)) (hlock : st.lock = none)
    (hprim : st.primary = some c0)
    (hB : ∀ p ∈ st.backups, ∀ w ∈ ws, p.1 < w.1)
    (hinc : (ws.map Prod.fst).Pairwise (· < ·))
    (hlen : BACKUP_RETAIN_PER_FILE ≤ ws.length) :
    (writeSeq st ws).backups = (snapDesc c0 ws).take BACKUP_RETAIN_PER_FILE ∧
      (writeSeq st ws).backups.length = BACKUP_RETAIN_PER_FILE := by
  obtain ⟨p, B, l⟩ := st
  have hp : p = some c0 := hprim
  have hl : l = none := hlock
  subst hp
  subst hl
  have hne : ws ≠ [] := by
    intro h
    subst h
    simp [BACKUP_RETAIN_PER_FILE] at hlen
  rw [writeSeq_spec ws c0 B hne hB hinc]
  constructor
  · show (snapDesc c0 ws ++ sortBk B).take BACKUP_RETAIN_PER_FILE = _
    rw [List.take_append_of_le_length (by rw [snapDesc_length]; exact hlen)]
  · show ((snapDesc c0 ws ++ sortBk B).take BACKUP_RETAIN_PER_FILE).length = _
    rw [List.length_take, List.length_append, snapDesc_length]
    omega

/-- Witness for C6: eleven successive writes on a resource with no prior
backups leave exactly the ten newest pre-write snapshots. -/
theorem backup_retention_after_writes_witness :
    (writeSeq ⟨some (.valid (.num 0)), [], none⟩
        [(1, .num 1), (2, .num 2), (3, .num 3), (4, .num 4), (5, .num 5),
         (6, .num 6), (7, .num 7), (8, .num 8), (9, .num 9), (10, .num 10),
         (11, .num 11)]).backups =
      (snapDesc (.valid (.num 0))
        [(1, .num 1), (2, .num 2), (3, .num 3), (4, .num 4), (5, .num 5),
         (6, .num 6), (7, .num 7), (8, .num 8), (9, .num 9), (10, .num 10),
         (11, .num 11)]).take BACKUP_RETAIN_PER_FILE ∧
    (writeSeq ⟨some (.valid (.num 0)), [], none⟩
        [(1, .num 1), (2, .num 2), (3, .num 3), (4, .num 4), (5, .num 5),
         (6, .num 6), (7, .num 7), (8, .num 8), (9, .num 9), (10, .num 10),
         (11, .num 11)]).backups.length = BACKUP_RETAIN_PER_FILE :=
  backup_retention_after_writes _ _ _ rfl rfl (by simp) (by decide)
    (by simp [BACKUP_RETAIN_PER_FILE])

-- ## Claim C7: merge-upsert

/-- Unfolding of dict lookup on a nonempty dict. -/
theorem Obj.get_cons (k0 : String) (v : Json) (tl : Obj) (k : String) :
    Obj.get ((k0, v) :: tl) k = if k0 == k then some v else Obj.get tl k := by
  cases h : k0 == k <;> simp [Obj.get, List.find?, h]

/-- Lookup after update at the same key. -/
theorem Obj.get_set_self (o : Obj) (k : String) (v : Json) :
    Obj.get (Obj.set o k v) k = some v := by
  induction o with
  | nil => simp [Obj.set, Obj.get_cons]
  | cons hd tl ih =>
      obtain ⟨k0, v0⟩ := hd
      by_cases h : k0 = k
      · subst h
        simp [Obj.set, Obj.get_cons]
      · simp [Obj.set, Obj.get_cons, h, ih]

/-- Lookup after update at a different key. -/
theorem Obj.get_set_ne (o : Obj) (k k2 : String) (v : Json) (h : k2 ≠ k) :
    Obj.get (Obj.set o k v) k2 = Obj.get o k2 := by
  induction o with
  | nil =>
      have hne : ¬ (k == k2) = true := by
        simpa using fun (he : k = k2) => h he.symm
      simp [Obj.set, Obj.get_cons, hne]
  | cons hd tl ih =>
      obtain ⟨k0, v0⟩ := hd
      by_cases hk : k0 = k
      · subst hk
        have hne : ¬ (k0 == k2) = true := by
          simpa using fun (he : k0 = k2) => h he.symm
        simp [Obj.set, Obj.get_cons, hne]
      · simp [Obj.set, Obj.get_cons, hk, ih]

/-- A key absent from the key list is absent from lookup. -/
theorem Obj.get_eq_none_of_not_mem (o : Obj) (k : String)
    (h : k ∉ o.map Prod.fst) : Obj.get o k = none := by
  induction o with
  | nil => rfl
  | cons hd tl ih =>
      obtain ⟨k0, v0⟩ := hd
      simp only [List.map_cons, List.mem_cons, not_or] at h
      have : ¬ (k0 == k) = true := by simpa using fun he => h.1 he.symm
      rw [Obj.get_cons, if_neg this]
      exact ih h.2

/-- Single-step unfolding of `_deep_merge`. -/
theorem deepMerge_cons (r : Obj) (k : String) (v : Json) (rest : Obj) :
    deepMerge r ((k, v) :: rest) =
      deepMerge (Obj.set r k (mergeValue (Obj.get r k) v)) rest := by
  rcases v with _ | b | q | s | xs | vo <;>
    rcases hg : Obj.get r k with _ | (_ | b2 | q2 | s2 | xs2 | ro) <;>
      simp [deepMerge, mergeValue, hg]

/-- Base case of `_deep_merge`. -/
theorem deepMerge_nil (r : Obj) : deepMerge r [] = r := by
  simp [deepMerge]

/-- C7 preservation half: a key the candidate does not mention keeps its
existing value through the merge. -/
theorem deepMerge_get_absent (t : Obj) : ∀ (r : Obj) (k : String),
    Obj.get t k = none → Obj.get (deepMerge r t) k = Obj.get r k := by
  induction t with
  | nil => intro r k _; rw [deepMerge_nil]
  | cons hd tl ih =>
      obtain ⟨k0, v⟩ := hd
      intro r k h
      rw [Obj.get_cons] at h
      by_cases hk : k0 = k
      · simp [hk] at h
      · rw [if_neg (by simpa using hk)] at h
        rw [deepMerge_cons, ih _ k h]
        exact Obj.get_set_ne r k0 k _ (fun he => hk he.symm)

/-- C7 replacement half: a key the candidate does mention ends up with
the candidate's value, merged recursively when both sides hold dicts. -/
theorem deepMerge_get_present (t : Obj) : ∀ (r : Obj) (k : String) (v : Json),
    Obj.get t k = some v → (t.map Prod.fst).Nodup →
    Obj.get (deepMerge r t) k = some (mergeValue (Obj.get r k) v) := by
  induction t with
  | nil => intro r k v h _; simp [Obj.get] at h
  | cons hd tl ih =>
      obtain ⟨k0, v0⟩ := hd
      intro r k v h hnd
      rw [Obj.get_cons] at h
      rw [deepMerge_cons]
      by_cases hk : k0 = k
      · subst hk
        rw [if_pos (by simp)] at h
        injection h with hv
        subst hv
        simp only [List.map_cons, List.nodup_cons] at hnd
        have htl : Obj.get tl k0 = none :=
          Obj.get_eq_none_of_not_mem tl k0 hnd.1
        rw [deepMerge_get_absent tl _ k0 htl, Obj.get_set_self]
      · rw [if_neg (by simpa using hk)] at h
        simp only [List.map_cons, List.nodup_cons] at hnd
        rw [ih _ k v h hnd.2]
        rw [Obj.get_set_ne r k0 k _ (fun he => hk he.symm)]

/-- C7 replace-first: the first record matching the composite key is
replaced by its deep merge with the candidate; records before and after
it are untouched. -/
theorem upsertList_replaces_first (sc cid : Json) (t : Obj) :
    ∀ (pre : List Obj) (r : Obj) (post : List Obj),
      (∀ x ∈ pre, thesisKeyMatch x sc cid = false) →
      thesisKeyMatch r sc cid = true →
      upsertList sc cid t (pre ++ r :: post) = pre ++ deepMerge r t :: post := by
  intro pre
  induction pre with
  | nil => intro r post _ hr; simp [upsertList, hr]
  | cons x xs ih =>
      intro r post hpre hr
      have hx : thesisKeyMatch x sc cid = false := hpre x (by simp)
      have hrec := ih r post (fun y hy => hpre y (by simp [hy])) hr
      simp only [List.cons_append, upsertList, hx, Bool.false_eq_true,
        if_false, List.append_eq, hrec]

/-- C7 append: with no matching record the candidate is appended. -/
theorem upsertList_appends (sc cid : Json) (t : Obj) :
    ∀ l : List Obj, (∀ x ∈ l, thesisKeyMatch x sc cid = false) →
      upsertList sc cid t l = l ++ [t] := by
  intro l
  induction l with
  | nil => intro _; rfl
  | cons x xs ih =>
      intro h
      have hx : thesisKeyMatch x sc cid = false := h x (by simp)
      have hrec := ih (fun y hy => h y (by simp [hy]))
      simp only [upsertList, hx, Bool.false_eq_true, if_false,
        List.cons_append, hrec]

/-- C7: `upsert_thesis` replaces the (first) record matching the
candidate's composite key with the deep merge of that record and the
candidate -- keys absent from the candidate keep their existing values,
keys present get the candidate's value (recursively merged when both
sides are dicts, replaced wholesale otherwise) -- and appends the
candidate when no record matches; the spec's worked example holds. -/
theorem upsert_thesis_merge_semantics :
    (∀ (sc cid : Json) (t : Obj) (pre : List Obj) (r : Obj) (post : List Obj),
        (∀ x ∈ pre, thesisKeyMatch x sc cid = false) →
        thesisKeyMatch r sc cid = true →
        upsertList sc cid t (pre ++ r :: post) = pre ++ deepMerge r t :: post) ∧
    (∀ (sc cid : Json) (t : Obj) (l : List Obj),
        (∀ x ∈ l, thesisKeyMatch x sc cid = false) →
        upsertList sc cid t l = l ++ [t]) ∧
    (∀ (r t : Obj) (k : String),
        Obj.get t k = none → Obj.get (deepMerge r t) k = Obj.get r k) ∧
    (∀ (r t : Obj) (k : String) (v : Json),
        Obj.get t k = some v → (t.map Prod.fst).Nodup →
        Obj.get (deepMerge r t) k = some (mergeValue (Obj.get r k) v)) ∧
    deepMerge [("a", .num 1), ("b", .num 2)] [("a", .num 1), ("c", .num 3)] =
      [("a", .num 1), ("b", .num 2), ("c", .num 3)] := by
  refine ⟨upsertList_replaces_first, upsertList_appends,
    fun r t k h => deepMerge_get_absent t r k h,
    fun r t k v h hnd => deepMerge_get_present t r k v h hnd, ?_⟩
  rw [deepMerge_cons, deepMerge_cons, deepMerge_nil]
  rfl

/-- Witness for C7: a single matching record is replaced by its merge
with the candidate; the spec's worked example evaluates as claimed. -/
theorem upsert_thesis_merge_semantics_witness :
    upsertList (.str "s1") (.str "c1")
        [("student_code", .str "s1"), ("course_id", .str "c1"), ("title", .str "T")]
        [[("student_code", .str "s1"), ("course_id", .str "c1"), ("score", .num 17)]] =
      [deepMerge
        [("student_code", .str "s1"), ("course_id", .str "c1"), ("score", .num 17)]
        [("student_code", .str "s1"), ("course_id", .str "c1"), ("title", .str "T")]] ∧
    deepMerge [("a", .num 1), ("b", .num 2)] [("a", .num 1), ("c", .num 3)] =
      [("a", .num 1), ("b", .num 2), ("c", .num 3)] := by
  constructor
  · have h := upsert_thesis_merge_semantics.1 (.str "s1") (.str "c1")
      [("student_code", .str "s1"), ("course_id", .str "c1"), ("title", .str "T")]
      [] [("student_code", .str "s1"), ("course_id", .str "c1"), ("score", .num 17)] []
      (by simp)
      (by simp [thesisKeyMatch, optEqJ, Obj.get, List.find?, Json.beq])
    simpa using h
  · exact upsert_thesis_merge_semantics.2.2.2.2

-- ## Claim C8: idempotent archive replace

/-- Inversion of a successful `Except` bind. -/
theorem exceptBind_ok {α β ε : Type} {e : Except ε α} {f : α → Except ε β}
    {b : β} (h : (e >>= f) = .ok b) : ∃ a, e = .ok a ∧ f a = .ok b := by
  cases e with
  | error err => simp [Bind.bind, Except.bind] at h
  | ok a => exact ⟨a, rfl, by simpa [Bind.bind, Except.bind] using h⟩

/-- The record built by `archive_defense` carries the composite key it
was built from. -/
theorem buildDefenseRec_key (student_code course_id title : String)
    (year : ℤ) (semester supervisor_code : String) (judges : Json)
    (scores : List (String × ℚ)) (attendees : Option (List Json))
    (files : List (String × Json)) (finalized_at : String) (r : Obj)
    (h : buildDefenseRec student_code course_id title year semester
        supervisor_code judges scores attendees files finalized_at = .ok r) :
    thesisKeyMatch r (.str student_code) (.str course_id) = true := by
  unfold buildDefenseRec at h
  obtain ⟨s1, h1, h⟩ := exceptBind_ok h
  obtain ⟨s2, h2, h⟩ := exceptBind_ok h
  obtain ⟨s3, h3, h⟩ := exceptBind_ok h
  obtain ⟨jn, hj, h⟩ := exceptBind_ok h
  simp only [pure, Except.pure, Except.ok.injEq] at h
  subst h
  simp [thesisKeyMatch, optEqJ, Obj.get, List.find?, Json.beq]

/-- Documents written by the list-transform lifting decode back to the
same record list. -/
theorem toRecords_objList (l : List Obj) :
    toRecords (.arr (l.map Json.obj)) = .ok l := by
  induction l with
  | nil => rfl
  | cons x xs ih =>
      show (List.map Json.obj (x :: xs)).mapM asObj = Except.ok (x :: xs)
      rw [List.map_cons, List.mapM_cons]
      have ih2 : (List.map Json.obj xs).mapM asObj = Except.ok xs := ih
      rw [ih2]
      simp [asObj, bind, Except.bind, pure, Except.pure]

/-- Reading a resource whose primary file parses returns its document. -/
theorem read_json_valid (st : ResState) (dflt j : Json)
    (h : st.primary = some (.valid j)) : read_json st dflt = j := by
  obtain ⟨p, B, l⟩ := st
  have hp : p = some (.valid j) := h
  subst hp
  rfl

/-- Success path of `update_atomic` on a free lock: the transform's
result is persisted after a backup rotation and the lock is released. -/
theorem update_atomic_ok_case (fuel : Nat) (now : ℚ) (ts : Nat)
    (st : ResState) (dflt : Json) (fn : Json → Except String (Option Json))
    (out : Option Json) (hlock : st.lock = none)
    (hfn : fn (read_json st dflt) = .ok out) :
    update_atomic (fuel + 1) now ts st dflt fn =
      (.ok out,
       { rotate_backup ts { st with lock := some now } with
         primary := some (.valid (out.getD (read_json st dflt))),
         lock := none }) := by
  have hacq : acquireLoop (fuel + 1) now LOCK_TIMEOUT_SEC now st.lock =
      .acquired now now := by rw [hlock]; rfl
  have h2 : fn (read_json { st with lock := some now } dflt) = Except.ok out := hfn
  simp only [update_atomic, hacq, h2]
  rfl

/-- After the archive transform, exactly one record carries the
composite key: the appended one. -/
theorem archiveFn_filter (sc cid : String) (recNew : Obj) (l : List Obj)
    (hkey : thesisKeyMatch recNew (.str sc) (.str cid) = true) :
    (archiveFn sc cid recNew l).filter
        (fun r => thesisKeyMatch r (.str sc) (.str cid)) = [recNew] := by
  unfold archiveFn
  rw [List.filter_append]
  have h1 : (l.filter (fun r => !(thesisKeyMatch r (.str sc) (.str cid)))).filter
      (fun r => thesisKeyMatch r (.str sc) (.str cid)) = [] := by
    rw [List.filter_filter]
    apply List.filter_eq_nil_iff.mpr
    intro a _
    simp [Bool.and_not_self]
  rw [h1]
  simp [List.filter, hkey]

/-- Evaluating a lifted list transform on a well-formed record list. -/
theorem liftFn_objList (g : List Obj → Except String (List Obj))
    (l l2 : List Obj) (hg : g l = .ok l2) :
    liftFn g (.arr (l.map Json.obj)) = .ok (some (.arr (l2.map Json.obj))) := by
  simp [liftFn, toRecords_objList, hg, bind, Except.bind, pure, Except.pure]

/-- C8: two successive `archive_defense` calls with the same composite
key (and possibly different payloads) leave the defended-thesis list
with exactly one record for that key, holding the second call's record:
each call removes every record with the key before appending its own. -/
theorem archive_defense_idempotent_replace (fuel1 fuel2 : Nat)
    (now1 now2 : ℚ) (ts1 ts2 : Nat) (st0 : ResState) (l0 : List Obj)
    (sc cid title1 title2 : String) (year1 year2 : ℤ)
    (sem1 sem2 sup1 sup2 : String) (judges1 judges2 : Json)
    (scores1 scores2 : List (String × ℚ)) (att1 att2 : Option (List Json))
    (files1 files2 : List (String × Json)) (fin1 fin2 : String)
    (rec1 rec2 : Obj) (hlock : st0.lock = none)
    (hprim : st0.primary = some (.valid (.arr (l0.map Json.obj))))
    (h1 : buildDefenseRec sc cid title1 year1 sem1 sup1 judges1 scores1
        att1 files1 fin1 = .ok rec1)
    (h2 : buildDefenseRec sc cid title2 year2 sem2 sup2 judges2 scores2
        att2 files2 fin2 = .ok rec2) :
    ∃ st1 st2 : ResState,
      archive_defense (fuel1 + 1) now1 ts1 st0 sc cid title1 year1 sem1 sup1
          judges1 scores1 att1 files1 fin1 =
        .ok (.ok (some (.arr ((archiveFn sc cid rec1 l0).map Json.obj))), st1) ∧
      st1.primary =
        some (.valid (.arr ((archiveFn sc cid rec1 l0).map Json.obj))) ∧
      archive_defense (fuel2 + 1) now2 ts2 st1 sc cid title2 year2 sem2 sup2
          judges2 scores2 att2 files2 fin2 =
        .ok (.ok (some (.arr ((archiveFn sc cid rec2
              (archiveFn sc cid rec1 l0)).map Json.obj))), st2) ∧
      st2.primary =
        some (.valid (.arr ((archiveFn sc cid rec2
          (archiveFn sc cid rec1 l0)).map Json.obj))) ∧
      (archiveFn sc cid rec2 (archiveFn sc cid rec1 l0)).filter
          (fun r => thesisKeyMatch r (.str sc) (.str cid)) = [rec2] := by
  have hr0 : read_json st0 (.arr []) = .arr (l0.map Json.obj) :=
    read_json_valid st0 _ _ hprim
  have hfn1 : liftFn (fun archive => .ok (archiveFn sc cid rec1 archive))
      (read_json st0 (.arr [])) =
      .ok (some (.arr ((archiveFn sc cid rec1 l0).map Json.obj))) := by
    rw [hr0]
    exact liftFn_objList _ _ _ rfl
  have hupd1 : update_atomic (fuel1 + 1) now1 ts1 st0 (.arr [])
      (liftFn (fun archive => .ok (archiveFn sc cid rec1 archive))) =
      (.ok (some (.arr ((archiveFn sc cid rec1 l0).map Json.obj))),
       postUpdateState ts1 now1 st0
         (.arr ((archiveFn sc cid rec1 l0).map Json.obj))) :=
    update_atomic_ok_case fuel1 now1 ts1 st0 (.arr []) _ _ hlock hfn1
  have hcall1 : archive_defense (fuel1 + 1) now1 ts1 st0 sc cid title1 year1
      sem1 sup1 judges1 scores1 att1 files1 fin1 =
      .ok (.ok (some (.arr ((archiveFn sc cid rec1 l0).map Json.obj))),
        postUpdateState ts1 now1 st0
          (.arr ((archiveFn sc cid rec1 l0).map Json.obj))) := by
    unfold archive_defense
    rw [h1]
    simp only [Except.map]
    rw [hupd1]
  have hfn2 : liftFn (fun archive => .ok (archiveFn sc cid rec2 archive))
      (read_json (postUpdateState ts1 now1 st0
        (.arr ((archiveFn sc cid rec1 l0).map Json.obj))) (.arr [])) =
      .ok (some (.arr ((archiveFn sc cid rec2
        (archiveFn sc cid rec1 l0)).map Json.obj))) := by
    rw [read_json_valid _ _ _ rfl]
    exact liftFn_objList _ _ _ rfl
  have hupd2 : update_atomic (fuel2 + 1) now2 ts2
      (postUpdateState ts1 now1 st0
        (.arr ((archiveFn sc cid rec1 l0).map Json.obj))) (.arr [])
      (liftFn (fun archive => .ok (archiveFn sc cid rec2 archive))) =
      (.ok (some (.arr ((archiveFn sc cid rec2
          (archiveFn sc cid rec1 l0)).map Json.obj))),
       postUpdateState ts2 now2
         (postUpdateState ts1 now1 st0
           (.arr ((archiveFn sc cid rec1 l0).map Json.obj)))
         (.arr ((archiveFn sc cid rec2
           (archiveFn sc cid rec1 l0)).map Json.obj))) :=
    update_atomic_ok_case fuel2 now2 ts2 _ (.arr []) _ _ rfl hfn2
  have hcall2 : archive_defense (fuel2 + 1) now2 ts2
      (postUpdateState ts1 now1 st0
        (.arr ((archiveFn sc cid rec1 l0).map Json.obj)))
      sc cid title2 year2 sem2 sup2 judges2 scores2 att2 files2 fin2 =
      .ok (.ok (some (.arr ((archiveFn sc cid rec2
          (archiveFn sc cid rec1 l0)).map Json.obj))),
        postUpdateState ts2 now2
          (postUpdateState ts1 now1 st0
            (.arr ((archiveFn sc cid rec1 l0).map Json.obj)))
          (.arr ((archiveFn sc cid rec2
            (archiveFn sc cid rec1 l0)).map Json.obj))) := by
    unfold archive_defense
    rw [h2]
    simp only [Except.map]
    rw [hupd2]
  exact ⟨_, _, hcall1, rfl, hcall2, rfl,
    archiveFn_filter sc cid rec2 (archiveFn sc cid rec1 l0)
      (buildDefenseRec_key sc cid title2 year2 sem2 sup2 judges2 scores2
        att2 files2 fin2 rec2 h2)⟩

/-- Witness for C8: two defenses archived for the same student and
course with different titles; the archive keeps exactly the second
record.  The score and grade fields are stated as the (unevaluated)
arithmetic the source performs. -/
theorem archive_defense_idempotent_replace_witness :
    ∃ st1 st2 : ResState,
      archive_defense (0 + 1) 0 3 ⟨some (.valid (.arr [])), [], none⟩
          "s1" "c1" "T1" 1400 "اول" "t0"
          (.obj [("internal", .str "t1"), ("external", .str "t2")])
          [("supervisor", 17), ("internal", 17), ("external", 17)]
          none [] "ts1" =
        .ok (.ok (some (.arr ((archiveFn "s1" "c1"
            [("student_code", .str "s1"), ("course_id", .str "c1"),
             ("title", .str "T1"), ("year", .num 1400), ("semester", .str "اول"),
             ("supervisor", .str "t0"),
             ("judges", .obj [("internal", .str "t1"), ("external", .str "t2")]),
             ("scores", .obj [("supervisor", .num 17), ("internal", .num 17),
                              ("external", .num 17)]),
             ("score", .num (round2 ((17 + 17 + 17) / 3))),
             ("grade_letter", .str (grade_letter (round2 ((17 + 17 + 17) / 3)))),
             ("grade_letter_fa", .str (grade_letter_fa (round2 ((17 + 17 + 17) / 3)))),
             ("attendees", .arr []), ("files", .obj []),
             ("finalized_at", .str "ts1")] []).map Json.obj))), st1) ∧
      st1.primary = some (.valid (.arr ((archiveFn "s1" "c1"
            [("student_code", .str "s1"), ("course_id", .str "c1"),
             ("title", .str "T1"), ("year", .num 1400), ("semester", .str "اول"),
             ("supervisor", .str "t0"),
             ("judges", .obj [("internal", .str "t1"), ("external", .str "t2")]),
             ("scores", .obj [("supervisor", .num 17), ("internal", .num 17),
                              ("external", .num 17)]),
             ("score", .num (round2 ((17 + 17 + 17) / 3))),
             ("grade_letter", .str (grade_letter (round2 ((17 + 17 + 17) / 3)))),
             ("grade_letter_fa", .str (grade_letter_fa (round2 ((17 + 17 + 17) / 3)))),
             ("attendees", .arr []), ("files", .obj []),
             ("finalized_at", .str "ts1")] []).map Json.obj))) ∧
      archive_defense (0 + 1) 0 4 st1 "s1" "c1" "T2" 1401 "دوم" "t0"
          (.obj [("internal", .str "t3"), ("external", .str "t4")])
          [("supervisor", 17), ("internal", 17), ("external", 17)]
          none [] "ts2" =
        .ok (.ok (some (.arr ((archiveFn "s1" "c1"
            [("student_code", .str "s1"), ("course_id", .str "c1"),
             ("title", .str "T2"), ("year", .num 1401), ("semester", .str "دوم"),
             ("supervisor", .str "t0"),
             ("judges", .obj [("internal", .str "t3"), ("external", .str "t4")]),
             ("scores", .obj [("supervisor", .num 17), ("internal", .num 17),
                              ("external", .num 17)]),
             ("score", .num (round2 ((17 + 17 + 17) / 3))),
             ("grade_letter", .str (grade_letter (round2 ((17 + 17 + 17) / 3)))),
             ("grade_letter_fa", .str (grade_letter_fa (round2 ((17 + 17 + 17) / 3)))),
             ("attendees", .arr []), ("files", .obj []),
             ("finalized_at", .str "ts2")]
            (archiveFn "s1" "c1"
              [("student_code", .str "s1"), ("course_id", .str "c1"),
               ("title", .str "T1"), ("year", .num 1400), ("semester", .str "اول"),
               ("supervisor", .str "t0"),
               ("judges", .obj [("internal", .str "t1"), ("external", .str "t2")]),
               ("scores", .obj [("supervisor", .num 17), ("internal", .num 17),
                                ("external", .num 17)]),
               ("score", .num (round2 ((17 + 17 + 17) / 3))),
               ("grade_letter", .str (grade_letter (round2 ((17 + 17 + 17) / 3)))),
               ("grade_letter_fa", .str (grade_letter_fa (round2 ((17 + 17 + 17) / 3)))),
               ("attendees", .arr []), ("files", .obj []),
               ("finalized_at", .str "ts1")] [])).map Json.obj))), st2) ∧
      st2.primary = some (.valid (.arr ((archiveFn "s1" "c1"
            [("student_code", .str "s1"), ("course_id", .str "c1"),
             ("title", .str "T2"), ("year", .num 1401), ("semester", .str "دوم"),
             ("supervisor", .str "t0"),
             ("judges", .obj [("internal", .str "t3"), ("external", .str "t4")]),
             ("scores", .obj [("supervisor", .num 17), ("internal", .num 17),
                              ("external", .num 17)]),
             ("score", .num (round2 ((17 + 17 + 17) / 3))),
             ("grade_letter", .str (grade_letter (round2 ((17 + 17 + 17) / 3)))),
             ("grade_letter_fa", .str (grade_letter_fa (round2 ((17 + 17 + 17) / 3)))),
             ("attendees", .arr []), ("files", .obj []),
             ("finalized_at", .str "ts2")]
            (archiveFn "s1" "c1"
              [("student_code", .str "s1"), ("course_id", .str "c1"),
               ("title", .str "T1"), ("year", .num 1400), ("semester", .str "اول"),
               ("supervisor", .str "t0"),
               ("judges", .obj [("internal", .str "t1"), ("external", .str "t2")]),
               ("scores", .obj [("supervisor", .num 17), ("internal", .num 17),
                                ("external", .num 17)]),
               ("score", .num (round2 ((17 + 17 + 17) / 3))),
               ("grade_letter", .str (grade_letter (round2 ((17 + 17 + 17) / 3)))),
               ("grade_letter_fa", .str (grade_letter_fa (round2 ((17 + 17 + 17) / 3)))),
               ("attendees", .arr []), ("files", .obj []),
               ("finalized_at", .str "ts1")] [])).map Json.obj))) ∧
      (archiveFn "s1" "c1"
          [("student_code", .str "s1"), ("course_id", .str "c1"),
           ("title", .str "T2"), ("year", .num 1401), ("semester", .str "دوم"),
           ("supervisor", .str "t0"),
           ("judges", .obj [("internal", .str "t3"), ("external", .str "t4")]),
           ("scores", .obj [("supervisor", .num 17), ("internal", .num 17),
                            ("external", .num 17)]),
           ("score", .num (round2 ((17 + 17 + 17) / 3))),
           ("grade_letter", .str (grade_letter (round2 ((17 + 17 + 17) / 3)))),
           ("grade_letter_fa", .str (grade_letter_fa (round2 ((17 + 17 + 17) / 3)))),
           ("attendees", .arr []), ("files", .obj []),
           ("finalized_at", .str "ts2")]
          (archiveFn "s1" "c1"
            [("student_code", .str "s1"), ("course_id", .str "c1"),
             ("title", .str "T1"), ("year", .num 1400), ("semester", .str "اول"),
             ("supervisor", .str "t0"),
             ("judges", .obj [("internal", .str "t1"), ("external", .str "t2")]),
             ("scores", .obj [("supervisor", .num 17), ("internal", .num 17),
                              ("external", .num 17)]),
             ("score", .num (round2 ((17 + 17 + 17) / 3))),
             ("grade_letter", .str (grade_letter (round2 ((17 + 17 + 17) / 3)))),
             ("grade_letter_fa", .str (grade_letter_fa (round2 ((17 + 17 + 17) / 3)))),
             ("attendees", .arr []), ("files", .obj []),
             ("finalized_at", .str "ts1")] [])).filter
          (fun r => thesisKeyMatch r (.str "s1") (.str "c1")) =
        [[("student_code", .str "s1"), ("course_id", .str "c1"),
          ("title", .str "T2"), ("year", .num 1401), ("semester", .str "دوم"),
          ("supervisor", .str "t0"),
          ("judges", .obj [("internal", .str "t3"), ("external", .str "t4")]),
          ("scores", .obj [("supervisor", .num 17), ("internal", .num 17),
                           ("external", .num 17)]),
          ("score", .num (round2 ((17 + 17 + 17) / 3))),
          ("grade_letter", .str (grade_letter (round2 ((17 + 17 + 17) / 3)))),
          ("grade_letter_fa", .str (grade_letter_fa (round2 ((17 + 17 + 17) / 3)))),
          ("attendees", .arr []), ("files", .obj []),
          ("finalized_at", .str "ts2")]] :=
  archive_defense_idempotent_replace 0 0 0 0 3 4
    ⟨some (.valid (.arr [])), [], none⟩ [] "s1" "c1" "T1" "T2" 1400 1401
    "اول" "دوم" "t0" "t0"
    (.obj [("internal", .str "t1"), ("external", .str "t2")])
    (.obj [("internal", .str "t3"), ("external", .str "t4")])
    [("supervisor", 17), ("internal", 17), ("external", 17)]
    [("supervisor", 17), ("internal", 17), ("external", 17)]
    none none [] [] "ts1" "ts2" _ _ rfl rfl rfl rfl

-- ## Claim C9: unique student registration

/-- A student-code field matches itself in the duplicate check. -/
theorem optEqJ_str_self (c : String) :
    optEqJ (some (.str c)) (.str c) = true := by
  simp [optEqJ, Json.beq]

/-- Validation outcome for the records `register_student` builds: only a
truthy malformed email can fail. -/
theorem validate_student_newRec (name code pw e created : String) :
    validate_student
      [("name", .str name), ("student_code", .str code),
       ("password_hash", .str pw), ("email", .str e),
       ("created_at", .str created), ("active", .bool true)] =
      if (e != "") && !(_is_email e) then (false, "Invalid student email")
      else (true, "OK") := by
  simp [validate_student, Obj.get_cons, isStrJ, jsonTruthy]

/-- A failing list transform fails through the lifting. -/
theorem liftFn_objList_error (g : List Obj → Except String (List Obj))
    (l : List Obj) (e : String) (hg : g l = .error e) :
    liftFn g (.arr (l.map Json.obj)) = .error e := by
  simp [liftFn, toRecords_objList, hg, bind, Except.bind]

/-- C9 (amended): if a record with the given `student_code` exists,
`register_student` raises `ValueError` and writes nothing; otherwise,
if a nonempty malformed email was supplied it also raises `ValueError`
and writes nothing; otherwise it appends exactly one record with that
code.  Distinctness of student codes is preserved by every successful
call, and any transform failure leaves the file unchanged with the lock
released. -/
theorem register_student_unique_checked (name code pw created : String)
    (email : Option String) (students : List Obj) :
    (students.any (fun s => optEqJ (Obj.get s "student_code") (.str code)) = true →
      registerFn name code pw (email.getD "") created students =
        .error "student_code already exists") ∧
    (students.any (fun s => optEqJ (Obj.get s "student_code") (.str code)) = false →
      (email.getD "" = "" ∨ _is_email (email.getD "") = true) →
      registerFn name code pw (email.getD "") created students =
        .ok (students ++
          [[("name", .str name), ("student_code", .str code),
            ("password_hash", .str pw), ("email", .str (email.getD "")),
            ("created_at", .str created), ("active", .bool true)]])) ∧
    (students.any (fun s => optEqJ (Obj.get s "student_code") (.str code)) = false →
      email.getD "" ≠ "" → _is_email (email.getD "") = false →
      registerFn name code pw (email.getD "") created students =
        .error "Invalid student record: Invalid student email") ∧
    (∀ l2, registerFn name code pw (email.getD "") created students = .ok l2 →
      (students.map (fun s => Obj.get s "student_code")).Pairwise (· ≠ ·) →
      (l2.map (fun s => Obj.get s "student_code")).Pairwise (· ≠ ·)) ∧
    (∀ (fuel : Nat) (now : ℚ) (ts : Nat) (st : ResState) (mt t : ℚ) (e2 : String),
      acquireLoop fuel now LOCK_TIMEOUT_SEC now st.lock = .acquired mt t →
      liftFn (registerFn name code pw (email.getD "") created)
        (read_json st (.arr [])) = .error e2 →
      register_student fuel now ts st name code pw email created =
        (.error (.transformError e2), ⟨st.primary, st.backups, none⟩)) := by
  refine ⟨?_, ?_, ?_, ?_, ?_⟩
  · intro hany
    simp [registerFn, hany]
  · intro hany hem
    simp only [registerFn, hany, Bool.false_eq_true, if_false]
    rw [validate_student_newRec]
    have hcond : ((email.getD "" != "") && !(_is_email (email.getD ""))) = false := by
      rcases hem with he | he
      · simp [he]
      · simp [he]
    rw [hcond]
    rfl
  · intro hany hne hbad
    simp only [registerFn, hany, Bool.false_eq_true, if_false]
    rw [validate_student_newRec]
    have hcond : ((email.getD "" != "") && !(_is_email (email.getD ""))) = true := by
      simp [hbad, bne_iff_ne, hne]
    rw [hcond]
    rfl
  · intro l2 hok hnd
    cases hb : students.any (fun s => optEqJ (Obj.get s "student_code") (.str code)) with
    | true => simp [registerFn, hb] at hok
    | false =>
        simp only [registerFn, hb, Bool.false_eq_true, if_false] at hok
        rw [validate_student_newRec] at hok
        by_cases hc : ((email.getD "" != "") && !(_is_email (email.getD ""))) = true
        · rw [if_pos hc] at hok
          simp at hok
        · rw [if_neg hc] at hok
          injection hok with hok
          subst hok
          rw [List.map_append, List.pairwise_append]
          refine ⟨hnd, by simp, ?_⟩
          intro a ha b hb2
          simp only [List.map_cons, List.map_nil, List.mem_singleton] at hb2
          obtain ⟨s, hs, rfl⟩ := List.mem_map.mp ha
          have hsf := List.any_eq_false.mp hb s hs
          subst hb2
          intro heq
          rw [show Obj.get
              [("name", Json.str name), ("student_code", Json.str code),
               ("password_hash", Json.str pw), ("email", Json.str (email.getD "")),
               ("created_at", Json.str created), ("active", Json.bool true)]
              "student_code" = some (.str code) from rfl] at heq
          rw [heq] at hsf
          exact hsf (optEqJ_str_self code)
  · intro fuel now ts st mt t e2 hacq hfn
    exact update_atomic_error_case fuel now ts st (.arr []) _ e2 mt t hacq hfn

/-- Counterexample for C9 as stated: with no existing record bearing the
code, registration with a nonempty malformed email ("a@ b" contains a
space) raises `ValueError` instead of appending a record. -/
theorem register_student_email_counterexample :
    (([] : List Obj).any
        (fun s => optEqJ (Obj.get s "student_code") (.str "S1"))) = false ∧
    registerFn "Ali" "S1" "h" "a@ b" "t0" [] =
      .error "Invalid student record: Invalid student email" :=
  ⟨rfl, rfl⟩

/-- Witness for C9 (amended): registering into an empty file with no
email appends exactly the one new record. -/
theorem register_student_unique_checked_witness :
    registerFn "Ali" "S1" "h" "" "t0" [] =
      .ok [[("name", .str "Ali"), ("student_code", .str "S1"),
        ("password_hash", .str "h"), ("email", .str ""),
        ("created_at", .str "t0"), ("active", .bool true)]] :=
  (register_student_unique_checked "Ali" "S1" "h" "t0" none []).2.1 rfl (Or.inl rfl)

-- ## Claim C10: rollback of a partially failed copy

/-- Creating a fresh directory entry appends it. -/
theorem fsAdd_of_not_mem {l : List String} {p : String} (h : p ∉ l) :
    fsAdd l p = l ++ [p] := by
  simp [fsAdd, h]

/-- Unlinking an absent entry is the identity. -/
theorem fsDel_of_not_mem {l : List String} {p : String} (h : p ∉ l) :
    fsDel l p = l := by
  apply List.filter_eq_self.mpr
  intro a ha
  have hne : a ≠ p := fun he => h (he ▸ ha)
  simpa using hne

/-- Deletion distributes over directory concatenation. -/
theorem fsDel_append (X Y : List String) (p : String) :
    fsDel (X ++ Y) p = fsDel X p ++ fsDel Y p :=
  List.filter_append _ _

/-- The destination of a completed iteration is among its entries. -/
theorem dst_mem_entries {j : Job} {done : List Job} (h : j ∈ done) :
    j.dst ∈ entries done := by
  simp only [entries, List.mem_flatMap]
  exact ⟨j, h, by simp [jobEntries]⟩

/-- Membership in one iteration's entries. -/
theorem mem_jobEntries {x : String} {j : Job} :
    x ∈ jobEntries j ↔ x = j.dst ∨
      (j.sres = SideRes.wrote ∧ x = sidecarName j.dst) ∨
      (j.sres = SideRes.failLate ∧ x = j.stmp) := by
  cases hs : j.sres <;> simp [jobEntries, hs]

/-- Membership in the entries of a list of completed iterations. -/
theorem mem_entries {x : String} {done : List Job} :
    x ∈ entries done ↔ ∃ j, j ∈ done ∧ x ∈ jobEntries j := by
  simp [entries]

/-- Membership in the orphaned sidecar temporaries. -/
theorem mem_orphans {p : String} {done : List Job} :
    p ∈ orphans done ↔
      ∃ j, j ∈ done ∧ j.sres = SideRes.failLate ∧ p = j.stmp := by
  simp only [orphans, List.mem_map, List.mem_filter, beq_iff_eq]
  constructor
  · rintro ⟨j, ⟨hj, hs⟩, hp⟩
    exact ⟨j, hj, hs, hp.symm⟩
  · rintro ⟨j, hj, hs, hp⟩
    exact ⟨j, ⟨hj, hs⟩, hp.symm⟩

/-- Invariant of the copy loop of `validate_and_copy`: starting from the
original directory plus the entries of the already-completed iterations,
the loop ends with the directory being the original plus the entries of
all completed iterations -- plus, on a late copy failure, the failed
copy's temporary file.  Entries of a completed iteration are its
destination, plus either its sidecar or (when the sidecar write failed
late, an exception `_write_sidecar_hash` swallows) the sidecar write's
orphaned temporary. -/
theorem copyLoop_spec (fs0 : List String) (alljobs : List Job)
    (H : goodJobs fs0 alljobs) :
    ∀ (jobs done : List Job) (fs : List String),
      (∀ j ∈ jobs, j ∈ alljobs) →
      (∀ j ∈ done, j ∈ alljobs) →
      (∀ j ∈ done, j.res = CopyRes.ok) →
      ((done.map Job.dst).Pairwise (· ≠ ·)) →
      (∀ j ∈ done, j.dst ∉ fs0) →
      fs = fs0 ++ entries done →
      ∃ fs1 done1 ok,
        copyLoop fs (done.map Job.dst) jobs = (fs1, done1.map Job.dst, ok) ∧
        (∀ j ∈ done1, j ∈ alljobs) ∧
        (∀ j ∈ done1, j.res = CopyRes.ok) ∧
        ((done1.map Job.dst).Pairwise (· ≠ ·)) ∧
        (∀ j ∈ done1, j.dst ∉ fs0) ∧
        (ok = true → fs1 = fs0 ++ entries done1) ∧
        (ok = false → fs1 = fs0 ++ entries done1 ∨
          ∃ j, j ∈ jobs ∧ j.res = CopyRes.failLate ∧
            fs1 = fs0 ++ entries done1 ++ [j.tmp]) := by
  intro jobs
  induction jobs with
  | nil =>
      intro done fs _ hmemd hresd hpw hnot hfs
      exact ⟨fs, done, true, rfl, hmemd, hresd, hpw, hnot, fun _ => hfs,
        by simp⟩
  | cons job rest ih =>
      obtain ⟨dst, tmp, res, stmp, sres⟩ := job
      intro done fs hsub hmemd hresd hpw hnot hfs
      have hjob : (⟨dst, tmp, res, stmp, sres⟩ : Job) ∈ alljobs :=
        hsub _ (by simp)
      have hsub2 : ∀ j ∈ rest, j ∈ alljobs := fun j hj => hsub j (by simp [hj])
      by_cases hdst : dst ∈ fs
      · obtain ⟨fs1, d1, ok, heq, h1, h2, h3, h4, h5, h6⟩ :=
          ih done fs hsub2 hmemd hresd hpw hnot hfs
        refine ⟨fs1, d1, ok, by simp [copyLoop, hdst, heq], h1, h2, h3, h4,
          h5, ?_⟩
        intro hok
        rcases h6 hok with h | ⟨j, hj, hjl, hje⟩
        · exact Or.inl h
        · exact Or.inr ⟨j, by simp [hj], hjl, hje⟩
      · have hdstf0 : dst ∉ fs0 := fun h => hdst (hfs ▸ List.mem_append_left _ h)
        have hmemfs : ∀ a ∈ done, a.dst ∈ fs := by
          intro a ha
          rw [hfs]
          exact List.mem_append_right _ (dst_mem_entries ha)
        cases res with
        | ok =>
            have hside_nf : sidecarName dst ∉ fs ++ [dst] := by
              intro hmem
              rcases List.mem_append.mp hmem with h0 | h1
              · rw [hfs] at h0
                rcases List.mem_append.mp h0 with h0 | hp
                · exact (H.2 _ hjob).2.2 hdstf0 h0
                · rcases mem_entries.mp hp with ⟨a, ha, hxa⟩
                  have ha2 := hmemd a ha
                  rcases mem_jobEntries.mp hxa with he | ⟨_, he⟩ | ⟨_, he⟩
                  · exact (H.1 _ ha2 _ hjob).2.2.2.1 he.symm
                  · have hne : dst ≠ a.dst := fun h2 => hdst (h2 ▸ hmemfs a ha)
                    exact (H.1 _ hjob _ ha2).2.2.2.2.2.2.1 hne he
                  · exact (H.1 _ ha2 _ hjob).2.2.2.2.2.1 he.symm
              · exact (H.1 _ hjob _ hjob).2.2.2.1 (List.mem_singleton.mp h1).symm
            have hstmp_nf : stmp ∉ fs ++ [dst] := by
              intro hmem
              rcases List.mem_append.mp hmem with h0 | h1
              · rw [hfs] at h0
                rcases List.mem_append.mp h0 with h0 | hp
                · exact (H.2 _ hjob).2.1 h0
                · rcases mem_entries.mp hp with ⟨a, ha, hxa⟩
                  have ha2 := hmemd a ha
                  rcases mem_jobEntries.mp hxa with he | ⟨_, he⟩ | ⟨_, he⟩
                  · exact (H.1 _ hjob _ ha2).2.2.2.2.1 he
                  · exact (H.1 _ hjob _ ha2).2.2.2.2.2.1 he
                  · have hne : dst ≠ a.dst := fun h2 => hdst (h2 ▸ hmemfs a ha)
                    exact (H.1 _ hjob _ ha2).2.2.2.2.2.2.2 hne he
              · exact (H.1 _ hjob _ hjob).2.2.2.2.1 (List.mem_singleton.mp h1)
            have hfsadd : fsAdd fs dst = fs ++ [dst] := fsAdd_of_not_mem hdst
            have hstep : writeSidecar (fsAdd fs dst) stmp (sidecarName dst) sres
                = fs0 ++
                  entries (done ++ [(⟨dst, tmp, CopyRes.ok, stmp, sres⟩ : Job)]) := by
              rw [hfsadd]
              cases sres with
              | wrote =>
                  rw [show writeSidecar (fs ++ [dst]) stmp (sidecarName dst)
                      SideRes.wrote = (fs ++ [dst]) ++ [sidecarName dst] from
                      fsAdd_of_not_mem hside_nf, hfs]
                  simp [entries, jobEntries]
              | failEarly =>
                  rw [show writeSidecar (fs ++ [dst]) stmp (sidecarName dst)
                      SideRes.failEarly = fs ++ [dst] from rfl, hfs]
                  simp [entries, jobEntries]
              | failLate =>
                  rw [show writeSidecar (fs ++ [dst]) stmp (sidecarName dst)
                      SideRes.failLate = (fs ++ [dst]) ++ [stmp] from
                      fsAdd_of_not_mem hstmp_nf, hfs]
                  simp [entries, jobEntries]
            have hmemd2 : ∀ j ∈ done ++ [(⟨dst, tmp, CopyRes.ok, stmp, sres⟩ : Job)],
                j ∈ alljobs := by
              intro j hj
              rcases List.mem_append.mp hj with h0 | h1
              · exact hmemd j h0
              · exact (List.mem_singleton.mp h1) ▸ hjob
            have hresd2 : ∀ j ∈ done ++ [(⟨dst, tmp, CopyRes.ok, stmp, sres⟩ : Job)],
                j.res = CopyRes.ok := by
              intro j hj
              rcases List.mem_append.mp hj with h0 | h1
              · exact hresd j h0
              · rw [List.mem_singleton.mp h1]
            have hpw2 : (((done ++ [(⟨dst, tmp, CopyRes.ok, stmp, sres⟩ : Job)]).map
                Job.dst).Pairwise (· ≠ ·)) := by
              rw [List.map_append, List.pairwise_append]
              refine ⟨hpw, by simp, ?_⟩
              intro a ha b hb
              simp only [List.map_cons, List.map_nil, List.mem_singleton] at hb
              rcases List.mem_map.mp ha with ⟨aj, haj, rfl⟩
              rw [hb]
              intro he
              exact hdst (he ▸ hmemfs aj haj)
            have hnot2 : ∀ j ∈ done ++ [(⟨dst, tmp, CopyRes.ok, stmp, sres⟩ : Job)],
                j.dst ∉ fs0 := by
              intro j hj
              rcases List.mem_append.mp hj with h0 | h1
              · exact hnot j h0
              · rw [List.mem_singleton.mp h1]
                exact hdstf0
            obtain ⟨fs1, d1, ok, heq, h1, h2, h3, h4, h5, h6⟩ :=
              ih (done ++ [(⟨dst, tmp, CopyRes.ok, stmp, sres⟩ : Job)])
                (writeSidecar (fsAdd fs dst) stmp (sidecarName dst) sres)
                hsub2 hmemd2 hresd2 hpw2 hnot2 hstep
            refine ⟨fs1, d1, ok, ?_, h1, h2, h3, h4, h5, ?_⟩
            · simp only [List.map_append, List.map_cons, List.map_nil] at heq
              simp [copyLoop, hdst, atomicCopy, heq]
            · intro hok
              rcases h6 hok with h | ⟨j, hj, hjl, hje⟩
              · exact Or.inl h
              · exact Or.inr ⟨j, by simp [hj], hjl, hje⟩
        | failEarly =>
            refine ⟨fs, done, false, by simp [copyLoop, hdst, atomicCopy],
              hmemd, hresd, hpw, hnot, by simp, fun _ => Or.inl hfs⟩
        | failLate =>
            have htmp_nf : tmp ∉ fs := by
              rw [hfs]
              intro hmem
              rcases List.mem_append.mp hmem with h0 | hp
              · exact (H.2 _ hjob).1 h0
              · rcases mem_entries.mp hp with ⟨a, ha, hxa⟩
                have ha2 := hmemd a ha
                rcases mem_jobEntries.mp hxa with he | ⟨_, he⟩ | ⟨_, he⟩
                · exact (H.1 _ hjob _ ha2).1 he
                · exact (H.1 _ hjob _ ha2).2.1 he
                · exact (H.1 _ hjob _ ha2).2.2.1 he
            refine ⟨fs ++ [tmp], done, false, ?_, hmemd, hresd, hpw, hnot,
              by simp, ?_⟩
            · simp [copyLoop, hdst, atomicCopy, fsAdd_of_not_mem htmp_nf]
            · intro _
              exact Or.inr ⟨⟨dst, tmp, CopyRes.failLate, stmp, sres⟩, by simp,
                rfl, by rw [hfs]⟩

/-- Rolling back (newest first) deletes exactly the created destination
files and their sidecars, leaving the rest of the directory -- including
the orphaned sidecar-write temporaries -- untouched. -/
theorem rollback_clean :
    ∀ (done : List Job) (fs0 extra : List String),
      (∀ j ∈ done, j.dst ∉ fs0 ∧ sidecarName j.dst ∉ fs0 ∧ j.dst ∉ extra ∧
        sidecarName j.dst ∉ extra ∧ j.dst ≠ sidecarName j.dst ∧
        j.stmp ≠ j.dst ∧ j.stmp ≠ sidecarName j.dst) →
      done.Pairwise (fun a b => a.dst ≠ b.dst ∧ a.dst ≠ sidecarName b.dst ∧
        sidecarName a.dst ≠ b.dst ∧ sidecarName a.dst ≠ sidecarName b.dst ∧
        a.dst ≠ b.stmp ∧ sidecarName a.dst ≠ b.stmp ∧
        b.dst ≠ a.stmp ∧ sidecarName b.dst ≠ a.stmp) →
      (done.map Job.dst).reverse.foldl
          (fun fs p => fsDel (fsDel fs p) (sidecarName p))
          (fs0 ++ entries done ++ extra) = fs0 ++ orphans done ++ extra := by
  intro done
  induction done using List.reverseRecOn with
  | nil => intro fs0 extra _ _; simp [entries, orphans]
  | append_singleton c d ihc =>
      intro fs0 extra hmem hpw
      have hd := hmem d (by simp)
      have hrels : ∀ a ∈ c, a.dst ≠ d.dst ∧ a.dst ≠ sidecarName d.dst ∧
          sidecarName a.dst ≠ d.dst ∧ sidecarName a.dst ≠ sidecarName d.dst ∧
          a.dst ≠ d.stmp ∧ sidecarName a.dst ≠ d.stmp ∧
          d.dst ≠ a.stmp ∧ sidecarName d.dst ≠ a.stmp := by
        intro a ha
        exact (List.pairwise_append.mp hpw).2.2 a ha d (by simp)
      have hdne : d.dst ∉ entries c := by
        intro hx
        rcases mem_entries.mp hx with ⟨a, ha, hxa⟩
        rcases mem_jobEntries.mp hxa with he | ⟨_, he⟩ | ⟨_, he⟩
        · exact (hrels a ha).1 he.symm
        · exact (hrels a ha).2.2.1 he.symm
        · exact (hrels a ha).2.2.2.2.2.2.1 he
      have hsne : sidecarName d.dst ∉ entries c := by
        intro hx
        rcases mem_entries.mp hx with ⟨a, ha, hxa⟩
        rcases mem_jobEntries.mp hxa with he | ⟨_, he⟩ | ⟨_, he⟩
        · exact (hrels a ha).2.1 he.symm
        · exact (hrels a ha).2.2.2.1 he.symm
        · exact (hrels a ha).2.2.2.2.2.2.2 he
      have hdfsp : d.dst ∉ fs0 ++ entries c := by
        intro hx
        rcases List.mem_append.mp hx with h | h
        exacts [hd.1 h, hdne h]
      have hsfsp : sidecarName d.dst ∉ fs0 ++ entries c := by
        intro hx
        rcases List.mem_append.mp hx with h | h
        exacts [hd.2.1 h, hsne h]
      have hsd : sidecarName d.dst ≠ d.dst := fun he => hd.2.2.2.2.1 he.symm
      have htd : d.stmp ≠ d.dst := hd.2.2.2.2.2.1
      have hts : d.stmp ≠ sidecarName d.dst := hd.2.2.2.2.2.2
      have h1 : fsDel ((fs0 ++ entries c) ++ jobEntries d ++ extra) d.dst
          = (fs0 ++ entries c) ++ fsDel (jobEntries d) d.dst ++ extra := by
        rw [fsDel_append, fsDel_append, fsDel_of_not_mem hdfsp,
          fsDel_of_not_mem hd.2.2.1]
      have h2 : fsDel ((fs0 ++ entries c) ++ fsDel (jobEntries d) d.dst ++
            extra) (sidecarName d.dst)
          = (fs0 ++ entries c) ++
            fsDel (fsDel (jobEntries d) d.dst) (sidecarName d.dst) ++ extra := by
        rw [fsDel_append, fsDel_append, fsDel_of_not_mem hsfsp,
          fsDel_of_not_mem hd.2.2.2.1]
      have h3 : fsDel (fsDel (jobEntries d) d.dst) (sidecarName d.dst)
          = orphans [d] := by
        cases hs : d.sres <;>
          simp [jobEntries, orphans, hs, fsDel, bne_iff_ne, hsd, htd, hts]
      have hkey : fsDel (fsDel ((fs0 ++ entries c) ++ jobEntries d ++ extra)
          d.dst) (sidecarName d.dst) = (fs0 ++ entries c) ++
          (orphans [d] ++ extra) := by
        rw [h1, h2, h3, List.append_assoc]
      have hstep : fsDel (fsDel (fs0 ++ entries (c ++ [d]) ++ extra) d.dst)
          (sidecarName d.dst) = fs0 ++ entries c ++ (orphans [d] ++ extra) := by
        have he : entries (c ++ [d]) = entries c ++ jobEntries d := by
          simp [entries]
        rw [he, show fs0 ++ (entries c ++ jobEntries d) ++ extra =
          (fs0 ++ entries c) ++ jobEntries d ++ extra by simp, hkey]
      have hmem2 : ∀ j ∈ c, j.dst ∉ fs0 ∧ sidecarName j.dst ∉ fs0 ∧
          j.dst ∉ orphans [d] ++ extra ∧
          sidecarName j.dst ∉ orphans [d] ++ extra ∧
          j.dst ≠ sidecarName j.dst ∧ j.stmp ≠ j.dst ∧
          j.stmp ≠ sidecarName j.dst := by
        intro a ha
        have haa := hmem a (List.mem_append_left _ ha)
        refine ⟨haa.1, haa.2.1, ?_, ?_, haa.2.2.2.2.1, haa.2.2.2.2.2.1,
          haa.2.2.2.2.2.2⟩
        · intro hx
          rcases List.mem_append.mp hx with h | h
          · rcases mem_orphans.mp h with ⟨j, hj, _, hp⟩
            rw [List.mem_singleton.mp hj] at hp
            exact (hrels a ha).2.2.2.2.1 hp
          · exact haa.2.2.1 h
        · intro hx
          rcases List.mem_append.mp hx with h | h
          · rcases mem_orphans.mp h with ⟨j, hj, _, hp⟩
            rw [List.mem_singleton.mp hj] at hp
            exact (hrels a ha).2.2.2.2.2.1 hp
          · exact haa.2.2.2.1 h
      rw [List.map_append, List.reverse_append]
      simp only [List.map_cons, List.map_nil, List.reverse_cons,
        List.reverse_nil, List.nil_append, List.singleton_append,
        List.foldl_cons]
      rw [hstep, ihc fs0 (orphans [d] ++ extra) hmem2
        (List.pairwise_append.mp hpw).1]
      simp [orphans, List.filter_append]

/-- C10 (amended): when `validate_and_copy` fails part-way through its
three copies, the rollback handler deletes every destination file and
sidecar hash file created during the call before the exception
propagates, and destination files that already existed are untouched.
The only files that can survive are orphaned temporary files: the
temporary file of the copy that failed mid-write, which `_atomic_copy`
does not clean up, and the temporary file of any sidecar write that
failed mid-write, whose exception `_write_sidecar_hash` swallows so the
loop continues past it. -/
theorem copy_rollback_cleanup (fs0 : List String) (jobs : List Job)
    (fs1 : List String) (H : goodJobs fs0 jobs)
    (hrun : copyWithRollback fs0 jobs = (fs1, false)) :
    ∃ done : List Job,
      (∀ j ∈ done, j ∈ jobs ∧ j.res = CopyRes.ok) ∧
      (∀ p ∈ orphans done, ∃ j, j ∈ done ∧ j.sres = SideRes.failLate ∧
        p = j.stmp) ∧
      (fs1 = fs0 ++ orphans done ∨
        ∃ j, j ∈ jobs ∧ j.res = CopyRes.failLate ∧
          fs1 = fs0 ++ orphans done ++ [j.tmp]) := by
  obtain ⟨fs1', done1, ok, heq, hmem1, hres1, hpw1, hnot1, hak, hfk⟩ :=
    copyLoop_spec fs0 jobs H jobs [] fs0 (fun j hj => hj) (by simp) (by simp)
      (by simp) (by simp) (by simp [entries])
  unfold copyWithRollback at hrun
  simp only [List.map_nil] at heq
  rw [heq] at hrun
  cases ok with
  | true => simp at hrun
  | false =>
      have hfs1 : fs1 = (done1.map Job.dst).reverse.foldl
          (fun fs p => fsDel (fsDel fs p) (sidecarName p)) fs1' :=
        ((Prod.mk.injEq _ _ _ _).mp hrun).1.symm
      refine ⟨done1, fun j hj => ⟨hmem1 j hj, hres1 j hj⟩,
        fun p hp => mem_orphans.mp hp, ?_⟩
      have hyppw : done1.Pairwise (fun a b => a.dst ≠ b.dst ∧
          a.dst ≠ sidecarName b.dst ∧ sidecarName a.dst ≠ b.dst ∧
          sidecarName a.dst ≠ sidecarName b.dst ∧ a.dst ≠ b.stmp ∧
          sidecarName a.dst ≠ b.stmp ∧ b.dst ≠ a.stmp ∧
          sidecarName b.dst ≠ a.stmp) := by
        have hpwd : done1.Pairwise (fun a b => a.dst ≠ b.dst) :=
          List.pairwise_map.mp hpw1
        refine List.Pairwise.imp_of_mem ?_ hpwd
        intro a b ha hb hne
        have ha2 := hmem1 a ha
        have hb2 := hmem1 b hb
        exact ⟨hne, (H.1 _ ha2 _ hb2).2.2.2.1,
          fun he => (H.1 _ hb2 _ ha2).2.2.2.1 he.symm,
          (H.1 _ ha2 _ hb2).2.2.2.2.2.2.1 hne,
          fun he => (H.1 _ hb2 _ ha2).2.2.2.2.1 he.symm,
          fun he => (H.1 _ hb2 _ ha2).2.2.2.2.2.1 he.symm,
          fun he => (H.1 _ ha2 _ hb2).2.2.2.2.1 he.symm,
          fun he => (H.1 _ ha2 _ hb2).2.2.2.2.2.1 he.symm⟩
      rcases hfk rfl with hcase | ⟨jf, hjf, hjl, hjfs⟩
      · left
        have hypmem : ∀ j ∈ done1, j.dst ∉ fs0 ∧ sidecarName j.dst ∉ fs0 ∧
            j.dst ∉ ([] : List String) ∧
            sidecarName j.dst ∉ ([] : List String) ∧
            j.dst ≠ sidecarName j.dst ∧ j.stmp ≠ j.dst ∧
            j.stmp ≠ sidecarName j.dst := by
          intro j hj
          have hj2 := hmem1 j hj
          exact ⟨hnot1 j hj, (H.2 _ hj2).2.2 (hnot1 j hj), by simp, by simp,
            (H.1 _ hj2 _ hj2).2.2.2.1, (H.1 _ hj2 _ hj2).2.2.2.2.1,
            (H.1 _ hj2 _ hj2).2.2.2.2.2.1⟩
        rw [hfs1, hcase,
          show fs0 ++ entries done1 = fs0 ++ entries done1 ++ [] by simp,
          rollback_clean done1 fs0 [] hypmem hyppw]
        simp
      · right
        refine ⟨jf, hjf, hjl, ?_⟩
        have hjf2 : jf ∈ jobs := hjf
        have hypmem : ∀ j ∈ done1, j.dst ∉ fs0 ∧ sidecarName j.dst ∉ fs0 ∧
            j.dst ∉ [jf.tmp] ∧ sidecarName j.dst ∉ [jf.tmp] ∧
            j.dst ≠ sidecarName j.dst ∧ j.stmp ≠ j.dst ∧
            j.stmp ≠ sidecarName j.dst := by
          intro j hj
          have hj2 := hmem1 j hj
          refine ⟨hnot1 j hj, (H.2 _ hj2).2.2 (hnot1 j hj), ?_, ?_,
            (H.1 _ hj2 _ hj2).2.2.2.1, (H.1 _ hj2 _ hj2).2.2.2.2.1,
            (H.1 _ hj2 _ hj2).2.2.2.2.2.1⟩
          · simp only [List.mem_singleton]
            exact fun he => (H.1 _ hjf2 _ hj2).1 he.symm
          · simp only [List.mem_singleton]
            exact fun he => (H.1 _ hjf2 _ hj2).2.1 he.symm
        rw [hfs1, hjfs, rollback_clean done1 fs0 [jf.tmp] hypmem hyppw]

/-- Counterexample for C10 as stated: the cover copy fails mid-write
after the pdf was copied; the rollback removes the pdf and its sidecar,
but the cover copy's temporary file is left behind -- a new file in the
destination directory after the failed call. -/
theorem copy_partial_failure_counterexample :
    copyWithRollback []
        [⟨"t.pdf", "tmp1", CopyRes.ok, "st1", SideRes.wrote⟩,
         ⟨"c.jpg", "tmp2", CopyRes.failLate, "st2", SideRes.wrote⟩,
         ⟨"l.jpg", "tmp3", CopyRes.ok, "st3", SideRes.wrote⟩] =
      (["tmp2"], false) ∧ ("tmp2" : String) ∉ ([] : List String) :=
  ⟨rfl, by simp⟩

/-- Witness for C10 (amended) at a concrete failing run: the pdf copy
succeeds but its sidecar write fails late (orphaning the sidecar temp),
then the cover copy fails late; after rollback, exactly the two orphaned
temporaries remain. -/
theorem copy_rollback_cleanup_witness :
    ∃ done : List Job,
      (∀ j ∈ done, j ∈ [(⟨"t.pdf", "tmp1", CopyRes.ok, "st1",
          SideRes.failLate⟩ : Job),
          ⟨"c.jpg", "tmp2", CopyRes.failLate, "st2", SideRes.wrote⟩] ∧
        j.res = CopyRes.ok) ∧
      (∀ p ∈ orphans done, ∃ j, j ∈ done ∧ j.sres = SideRes.failLate ∧
        p = j.stmp) ∧
      ((["st1", "tmp2"] : List String) = [] ++ orphans done ∨
        ∃ j, j ∈ [(⟨"t.pdf", "tmp1", CopyRes.ok, "st1",
            SideRes.failLate⟩ : Job),
            ⟨"c.jpg", "tmp2", CopyRes.failLate, "st2", SideRes.wrote⟩] ∧
          j.res = CopyRes.failLate ∧
          (["st1", "tmp2"] : List String) = [] ++ orphans done ++ [j.tmp]) :=
  copy_rollback_cleanup []
    [⟨"t.pdf", "tmp1", CopyRes.ok, "st1", SideRes.failLate⟩,
     ⟨"c.jpg", "tmp2", CopyRes.failLate, "st2", SideRes.wrote⟩]
    ["st1", "tmp2"] (by unfold goodJobs; decide) rfl

end ThesisHub
